import Mathlib

/-!
Shallow embedding of the Tricog-Project conversational intake core:
the per-turn handler `getAIResponse` from `backend/llm.js` (deterministic
question sequencing, the JSON parse-repair chain, session update, booking
slot attachment), the text normalizer `filterAndSpellCheck`, the symptom
matcher `detectMainSymptom`, and the slot generator
`generateAvailableSlots` / `getDefaultSlots` from the calendar module.

JavaScript dynamic values are modelled by the inductive type `Jv`
(undefined, null, booleans, numbers, strings, arrays, objects).  JS
numbers are idealized as exact rationals, with NaN represented by the
`none` case of `Option Dec`.  Times in the calendar module are minutes
since a reference local epoch whose day 0 is a Thursday, matching the
weekday arithmetic of JS `Date.getDay`.
-/

set_option maxHeartbeats 1000000

namespace Tricog

/-- An exact decimal number `mant / 10 ^ exp`.  Every numeric value the
modelled code manipulates (JSON literals, counters) is a decimal, so JS
doubles are idealized as exact decimals.  All constructions go through
`Dec.norm`, keeping values canonical (`exp` minimal), so propositional
equality coincides with numeric equality. -/
structure Dec where
  mant : Int
  exp : Nat
deriving Repr, DecidableEq

/-- `10 ^ e` on integers (structural, kernel-friendly). -/
def p10 : Nat → Int
  | 0 => 1
  | e + 1 => 10 * p10 e

/-- Canonicalize `m / 10 ^ e` by stripping factors of 10 (fuel `e`). -/
def Dec.normAux : Nat → Int → Nat → Dec
  | 0, m, e => ⟨m, e⟩
  | fuel + 1, m, e =>
    match e with
    | 0 => ⟨m, 0⟩
    | e' + 1 => if m % 10 = 0 then Dec.normAux fuel (m / 10) e' else ⟨m, e' + 1⟩

/-- The canonical decimal of value `m / 10 ^ e`. -/
def Dec.norm (m : Int) (e : Nat) : Dec := Dec.normAux e m e

/-- Embed an integer. -/
def Dec.ofInt (m : Int) : Dec := ⟨m, 0⟩

/-- Addition. -/
def Dec.add (a b : Dec) : Dec :=
  Dec.norm (a.mant * p10 b.exp + b.mant * p10 a.exp) (a.exp + b.exp)

/-- Comparison `a ≤ b` by cross-multiplication. -/
def Dec.le (a b : Dec) : Bool := a.mant * p10 b.exp ≤ b.mant * p10 a.exp

/-- `Math.min` on two decimals. -/
def Dec.minD (a b : Dec) : Dec := if Dec.le a b then a else b

/-- Multiply by `10 ^ e` for an integer `e`. -/
def Dec.mulPow10 (d : Dec) (e : Int) : Dec :=
  if 0 ≤ e then Dec.norm (d.mant * p10 e.toNat) d.exp
  else Dec.norm d.mant (d.exp + (-e).toNat)

/-- Truncation toward zero (JS `parseInt` on an integral rendering). -/
def Dec.trunc (d : Dec) : Int :=
  if 0 ≤ d.mant then d.mant / p10 d.exp else -((-d.mant) / p10 d.exp)

/-- A JavaScript runtime value.  `num none` is NaN. -/
inductive Jv where
  | undef : Jv
  | null : Jv
  | bool : Bool → Jv
  | num : Option Dec → Jv
  | str : String → Jv
  | arr : List Jv → Jv
  | obj : List (String × Jv) → Jv
deriving Repr

/-- JS strict equality `===` for the comparisons the source performs:
primitives compare by value; `===` on objects/arrays is reference
equality, and the source never compares two object references (every
`===` has a string literal on one side), so object operands yield
`false` here. -/
def Jv.beq : Jv → Jv → Bool
  | .undef, .undef => true
  | .null, .null => true
  | .bool a, .bool b => a == b
  | .num a, .num b => a == b
  | .str a, .str b => a == b
  | _, _ => false

instance : BEq Jv := ⟨Jv.beq⟩

/-- JS truthiness of a value. -/
def Jv.truthy : Jv → Bool
  | .undef => false
  | .null => false
  | .bool b => b
  | .num none => false
  | .num (some q) => q.mant ≠ 0
  | .str s => s ≠ ""
  | .arr _ => true
  | .obj _ => true

/-- JS `a || b`. -/
def jsOr (a b : Jv) : Jv := if a.truthy then a else b

/-- Property read `v.k` behind optional chaining `v?.k`: never throws,
yields `undefined` on nullish or primitive receivers and missing keys.
Object lookup returns the last binding for the key (JS objects keep one
slot per key; our object lists may carry shadowed earlier bindings). -/
def Jv.getOpt (v : Jv) (k : String) : Jv :=
  match v with
  | .obj fields =>
    match fields.reverse.find? (fun p => p.1 == k) with
    | some p => p.2
    | none => .undef
  | _ => Jv.undef

/-- Plain property read `v.k`: throws a TypeError on `null`/`undefined`
receivers, otherwise behaves like `Jv.getOpt`. -/
def Jv.getE (v : Jv) (k : String) : Except Unit Jv :=
  match v with
  | .null => .error ()
  | .undef => .error ()
  | _ => .ok (v.getOpt k)

/-- Property write `v.k = x`: updates objects (overwriting an existing
key in place, else appending); silently ignored on non-objects, which is
the non-strict-mode JS behavior for primitives. -/
def Jv.setF (v : Jv) (k : String) (x : Jv) : Jv :=
  match v with
  | .obj fields =>
    if fields.any (fun p => p.1 == k) then
      .obj (fields.map (fun p => if p.1 == k then (k, x) else p))
    else
      .obj (fields ++ [(k, x)])
  | _ => v

/-- Little-endian base-10 digits, fuel-bounded (`natDigitsList` passes
`n` itself as fuel, which always suffices). -/
def natDigitsAux : Nat → Nat → List Nat
  | 0, _ => []
  | _, 0 => []
  | fuel + 1, n + 1 => ((n + 1) % 10) :: natDigitsAux fuel ((n + 1) / 10)

/-- Little-endian base-10 digits of `n` (empty for 0). -/
def natDigitsList (n : Nat) : List Nat := natDigitsAux n n

/-- The character for one decimal digit. -/
def digitChar (d : Nat) : Char := Char.ofNat ('0'.toNat + d)

/-- Digits of a natural number, most significant first. -/
def natDigits (n : Nat) : String :=
  if n = 0 then "0" else String.mk ((natDigitsList n).reverse.map digitChar)

/-- JS `String(i)` for an integer value. -/
def intToStr (i : Int) : String :=
  if i < 0 then "-" ++ natDigits i.natAbs else natDigits i.natAbs

/-- JS `String(x)` for a number: integers exactly; fractional decimals
as `intpart.fracdigits` with the canonical form's digit count (matching
JS output for the magnitudes the modelled code produces; the exponent
notation JS switches to beyond 1e21 is not modelled). -/
def numToStr : Option Dec → String
  | none => "NaN"
  | some q =>
    if q.exp = 0 then intToStr q.mant
    else
      let sign := if q.mant < 0 then "-" else ""
      let a := q.mant.natAbs
      let ip := a / (p10 q.exp).toNat
      let fp := a % (p10 q.exp).toNat
      let ds := natDigits fp
      let pad := String.mk (List.replicate (q.exp - ds.length) '0')
      sign ++ natDigits ip ++ "." ++ pad ++ ds

/-- JS string coercion `String(v)`, fuel-bounded for nested arrays
(arrays stringify as their comma-joined elements). -/
def Jv.toStrF : Nat → Jv → String
  | _, .undef => "undefined"
  | _, .null => "null"
  | _, .bool b => if b then "true" else "false"
  | _, .num q => numToStr q
  | _, .str s => s
  | _, .obj _ => "[object Object]"
  | 0, .arr _ => ""
  | fuel + 1, .arr xs => String.intercalate "," (xs.map (Jv.toStrF fuel))

mutual

/-- Array-nesting depth of a value (fuel for `Jv.toStrF`). -/
def Jv.depth : Jv → Nat
  | .arr xs => 1 + Jv.depthList xs
  | _ => 1

def Jv.depthList : List Jv → Nat
  | [] => 0
  | x :: xs => max (Jv.depth x) (Jv.depthList xs)

end

/-- JS string coercion `String(v)` (the depth bound exceeds any
nesting, so the fuel never runs out). -/
def Jv.toStr (v : Jv) : String := Jv.toStrF v.depth v

/-- Decimal digit value. -/
def digitVal (c : Char) : Option Nat :=
  if '0' ≤ c ∧ c ≤ '9' then some (c.toNat - '0'.toNat) else none

/-- Parse a maximal run of decimal digits; returns value, digit count and
the remaining input. -/
def takeDigits : List Char → Nat → Nat → Nat × Nat × List Char
  | [], acc, cnt => (acc, cnt, [])
  | c :: cs, acc, cnt =>
    match digitVal c with
    | some d => takeDigits cs (acc * 10 + d) (cnt + 1)
    | none => (acc, cnt, c :: cs)

/-- JS whitespace test (the forms relevant here). -/
def isWsChar (c : Char) : Bool :=
  c = ' ' ∨ c = '\t' ∨ c = '\n' ∨ c = '\r'

/-- JS `parseInt` on a string, radix 10 (the hexadecimal `0x` form is not
modelled; no modelled call site feeds such strings). `none` is NaN. -/
def parseIntStr (s : String) : Option Int :=
  let cs := s.toList.dropWhile (fun c => isWsChar c)
  let (neg, cs) :=
    match cs with
    | '-' :: rest => (true, rest)
    | '+' :: rest => (false, rest)
    | _ => (false, cs)
  match takeDigits cs 0 0 with
  | (_, 0, _) => none
  | (v, _ + 1, _) => some (if neg then -(v : Int) else (v : Int))

/-- JS `parseInt(v)`: the argument is string-coerced first. -/
def parseIntJv (v : Jv) : Jv :=
  match parseIntStr v.toStr with
  | some i => .num (some (Dec.ofInt i))
  | none => .num none

/-! ### JSON parsing (model of `JSON.parse`) -/

/-- Skip JSON whitespace. -/
def skipWs (cs : List Char) : List Char := cs.dropWhile (fun c => isWsChar c)

/-- Hexadecimal digit value. -/
def hexVal (c : Char) : Option Nat :=
  if '0' ≤ c ∧ c ≤ '9' then some (c.toNat - '0'.toNat)
  else if 'a' ≤ c ∧ c ≤ 'f' then some (c.toNat - 'a'.toNat + 10)
  else if 'A' ≤ c ∧ c ≤ 'F' then some (c.toNat - 'A'.toNat + 10)
  else none

/-- Parse the body of a JSON string literal (the opening quote already
consumed), accumulating characters in reverse. -/
def parseJStr (acc : List Char) : List Char → Option (String × List Char)
  | [] => none
  | '"' :: rest => some (String.mk acc.reverse, rest)
  | '\\' :: esc =>
    match esc with
    | '"' :: r => parseJStr ('"' :: acc) r
    | '\\' :: r => parseJStr ('\\' :: acc) r
    | '/' :: r => parseJStr ('/' :: acc) r
    | 'b' :: r => parseJStr ('\x08' :: acc) r
    | 'f' :: r => parseJStr ('\x0c' :: acc) r
    | 'n' :: r => parseJStr ('\n' :: acc) r
    | 'r' :: r => parseJStr ('\r' :: acc) r
    | 't' :: r => parseJStr ('\t' :: acc) r
    | 'u' :: a :: b :: c :: d :: r =>
      match hexVal a, hexVal b, hexVal c, hexVal d with
      | some ha, some hb, some hc, some hd =>
        parseJStr (Char.ofNat (((ha * 16 + hb) * 16 + hc) * 16 + hd) :: acc) r
      | _, _, _, _ => none
    | _ => none
  | c :: rest => if c.toNat < 32 then none else parseJStr (c :: acc) rest

/-- Parse a JSON number (leading whitespace already skipped).  The value
is exact (JS doubles are idealized as rationals). -/
def parseNum (cs : List Char) : Option (Jv × List Char) :=
  let (neg, cs1) :=
    match cs with
    | '-' :: r => (true, r)
    | _ => (false, cs)
  let ipart : Option (Nat × List Char) :=
    match cs1 with
    | '0' :: r => some (0, r)
    | c :: _ =>
      if '1' ≤ c ∧ c ≤ '9' then
        let (v, _, r') := takeDigits cs1 0 0
        some (v, r')
      else none
    | [] => none
  match ipart with
  | none => none
  | some (iv, r1) =>
    let (fv, fcnt, r2) :=
      match r1 with
      | '.' :: rf =>
        match takeDigits rf 0 0 with
        | (_, 0, _) => (0, 0, r1)
        | (v, n + 1, r') => (v, n + 1, r')
      | _ => (0, 0, r1)
    let (ev, r3) :=
      match r2 with
      | 'e' :: re | 'E' :: re =>
        let (esgn, re1) :=
          match re with
          | '-' :: rr => ((-1 : Int), rr)
          | '+' :: rr => ((1 : Int), rr)
          | _ => ((1 : Int), re)
        match takeDigits re1 0 0 with
        | (_, 0, _) => ((0 : Int), r2)
        | (v, _ + 1, r') => (esgn * (v : Int), r')
      | _ => ((0 : Int), r2)
    let base := Dec.norm ((iv : Int) * p10 fcnt + (fv : Int)) fcnt
    let mag := base.mulPow10 ev
    some (.num (some (if neg then ⟨-mag.mant, mag.exp⟩ else mag)), r3)

mutual

/-- Fuel-bounded recursive-descent JSON value parser.  The wrapper
`jsonParse` supplies fuel exceeding any possible nesting, so exhaustion
never changes the verdict on a parseable input. -/
def parseVal : Nat → List Char → Option (Jv × List Char)
  | 0, _ => none
  | fuel + 1, cs =>
    match skipWs cs with
    | 'n' :: 'u' :: 'l' :: 'l' :: rest => some (.null, rest)
    | 't' :: 'r' :: 'u' :: 'e' :: rest => some (.bool true, rest)
    | 'f' :: 'a' :: 'l' :: 's' :: 'e' :: rest => some (.bool false, rest)
    | '"' :: rest =>
      match parseJStr [] rest with
      | some (s, r) => some (.str s, r)
      | none => none
    | '[' :: rest =>
      match skipWs rest with
      | ']' :: r => some (.arr [], r)
      | r =>
        match parseElems fuel r with
        | some (xs, r') => some (.arr xs, r')
        | none => none
    | '{' :: rest =>
      match skipWs rest with
      | '}' :: r => some (.obj [], r)
      | r =>
        match parseFields fuel r with
        | some (fs, r') => some (.obj fs, r')
        | none => none
    | cs' => parseNum cs'

/-- Elements of a non-empty JSON array (after the opening bracket). -/
def parseElems : Nat → List Char → Option (List Jv × List Char)
  | 0, _ => none
  | fuel + 1, cs =>
    match parseVal fuel cs with
    | none => none
    | some (v, r) =>
      match skipWs r with
      | ',' :: r2 =>
        match parseElems fuel r2 with
        | some (xs, r3) => some (v :: xs, r3)
        | none => none
      | ']' :: r2 => some ([v], r2)
      | _ => none

/-- Members of a non-empty JSON object (after the opening brace). -/
def parseFields : Nat → List Char → Option (List (String × Jv) × List Char)
  | 0, _ => none
  | fuel + 1, cs =>
    match skipWs cs with
    | '"' :: r =>
      match parseJStr [] r with
      | none => none
      | some (k, r1) =>
        match skipWs r1 with
        | ':' :: r2 =>
          match parseVal fuel r2 with
          | none => none
          | some (v, r3) =>
            match skipWs r3 with
            | ',' :: r4 =>
              match parseFields fuel r4 with
              | some (fs, r5) => some ((k, v) :: fs, r5)
              | none => none
            | '}' :: r4 => some ([(k, v)], r4)
            | _ => none
        | _ => none
    | _ => none

end

/-- Model of `JSON.parse`: `none` means the call throws. -/
def jsonParse (s : String) : Option Jv :=
  match parseVal (2 * s.length + 2) s.toList with
  | some (v, rest) => if skipWs rest = [] then some v else none
  | none => none

/-! ### The parse-repair extraction steps of `getAIResponse` -/

/-- Lower-casing through the character list (JS `toLowerCase` on the
ASCII range the catalog and inputs use). -/
def lowerStr (s : String) : String := String.mk (s.toList.map Char.toLower)

/-- Case-insensitive character comparison. -/
def lcEq (a b : Char) : Bool := a.toLower == b.toLower

/-- Case-insensitive prefix test. -/
def isPrefixCI : List Char → List Char → Bool
  | [], _ => true
  | _ :: _, [] => false
  | p :: ps, c :: cs => lcEq c p && isPrefixCI ps cs

/-- Text after the first case-insensitive occurrence of `pat`. -/
def afterFirstCI (pat : List Char) : List Char → Option (List Char)
  | [] => if pat.isEmpty then some [] else none
  | c :: cs =>
    if isPrefixCI pat (c :: cs) then some ((c :: cs).drop pat.length)
    else afterFirstCI pat cs

/-- Split around the first (case-sensitive) occurrence of `pat`:
returns the text before it and the text after it. -/
def splitBeforeFirst (pat : List Char) : List Char → Option (List Char × List Char)
  | [] => if pat.isEmpty then some ([], []) else none
  | c :: cs =>
    if pat.isPrefixOf (c :: cs) then some ([], (c :: cs).drop pat.length)
    else
      match splitBeforeFirst pat cs with
      | some (b, a) => some (c :: b, a)
      | none => none

/-- Capture group of `/```json\s*([\s\S]*?)```/i`: the matched region
starts at the first occurrence of the (case-insensitively matched)
marker; the greedy `\s*` strips the following whitespace run and the
lazy group extends to the next closing fence.  The regex matches iff a
closing fence exists after the marker. -/
def fenceRe1 (cs : List Char) : Option (List Char) :=
  match afterFirstCI ("```json".toList) cs with
  | none => none
  | some rest =>
    let rest' := rest.dropWhile (fun c => isWsChar c)
    match splitBeforeFirst ("```".toList) rest' with
    | some (before, _) => some before
    | none => none

/-- Capture group of the second fence regex `/```\s*([\s\S]*?)```/`. -/
def fenceRe2 (cs : List Char) : Option (List Char) :=
  match afterFirstCI ("```".toList) cs with
  | none => none
  | some rest =>
    let rest' := rest.dropWhile (fun c => isWsChar c)
    match splitBeforeFirst ("```".toList) rest' with
    | some (before, _) => some before
    | none => none

/-- `rawContent.match(re1) || rawContent.match(re2)`, projected to the
capture group (the match object is non-null exactly when the regex
matches, regardless of whether the capture is empty). -/
def fenceExtract (cs : List Char) : Option (List Char) :=
  match fenceRe1 cs with
  | some cap => some cap
  | none => fenceRe2 cs

/-- The brace-span step: slice from the first `{` to the last `}`,
provided both exist and the `}` comes strictly later. -/
def braceSpan (cs : List Char) : Option (List Char) :=
  match List.findIdx? (fun c => c = '{') cs with
  | none => none
  | some first =>
    match List.findIdx? (fun c => c = '}') cs.reverse with
    | none => none
    | some j =>
      let last := cs.length - 1 - j
      if first < last then some ((cs.drop first).take (last - first + 1))
      else none

/-- The candidate string the repair code would hand to `JSON.parse`:
the fence capture when a fence matched with a non-empty (truthy)
capture, otherwise the brace span.  Mirrors
`if (fence && fence[1]) candidate = fence[1]; if (!candidate) {…}`. -/
def repairCandidate (raw : String) : Option String :=
  let cs := raw.toList
  let cand1 : Option (List Char) :=
    match fenceExtract cs with
    | some cap => if cap ≠ [] then some cap else none
    | none => none
  match cand1 with
  | some c => some (String.mk c)
  | none => (braceSpan cs).map String.mk

/-- Outcome of the candidate-parse step: the candidate parses and the
parsed value is truthy (a falsy parse leaves `aiResponse` unset and the
deterministic fallback fires). -/
def repairParsed (raw : String) : Option Jv :=
  match repairCandidate raw with
  | some c =>
    match jsonParse c with
    | some v => if v.truthy then some v else none
    | none => none
  | none => none

/-! ### TextNormalizer: `filterAndSpellCheck`

The malicious patterns are regexes that are alternations of plain words
and of `word.*word` forms; the spell corrections are plain literals.
Both are applied with the `gi` flags: a global scan over the current
string, case-insensitive, leftmost match first, alternatives tried in
source order, `.*` greedy but stopping at line terminators.  Matches
are located in the input of each pass; the replacement text is not
rescanned within the same pass, but the next pass sees it. -/

/-- One regex atom: a literal word (stored lowercase) or `.*`. -/
inductive Atom where
  | lit : List Char → Atom
  | star : Atom

/-- Characters matched by `.` (no line terminators). -/
def isDotChar (c : Char) : Bool :=
  ¬(c = '\n' ∨ c = '\r' ∨ c.toNat = 0x2028 ∨ c.toNat = 0x2029)

/-- Match a sequence of atoms at the head of `cs` (fuel-bounded; one
atom is consumed per fuel unit, so `atoms.length` suffices).  Returns
the number of characters consumed.  `.*` is greedy with backtracking:
candidate widths are tried from the longest line-terminator-free
prefix down to zero. -/
def matchSeq : Nat → List Atom → List Char → Option Nat
  | _, [], _ => some 0
  | 0, _ :: _, _ => none
  | fuel + 1, .lit w :: rest, cs =>
    if isPrefixCI w cs then
      match matchSeq fuel rest (cs.drop w.length) with
      | some n => some (w.length + n)
      | none => none
    else none
  | fuel + 1, .star :: rest, cs =>
    (List.range ((cs.takeWhile isDotChar).length + 1)).reverse.findSome?
      (fun k =>
        match matchSeq fuel rest (cs.drop k) with
        | some n => some (k + n)
        | none => none)

/-- Try the alternation branches in order at the current position. -/
def tryBranches : List (List Atom) → List Char → Option Nat
  | [], _ => none
  | b :: bs, cs =>
    match matchSeq b.length b cs with
    | some n => some n
    | none => tryBranches bs cs

/-- Global-replace scanning loop, fuel-bounded (`cs.length` suffices:
every step consumes at least one character). -/
def scanGo (branches : List (List Atom)) (rep : List Char) : Nat → List Char → List Char
  | _, [] => []
  | 0, cs => cs
  | fuel + 1, c :: cs =>
    match tryBranches branches (c :: cs) with
    | some (n + 1) => rep ++ scanGo branches rep fuel (cs.drop n)
    | some 0 => c :: scanGo branches rep fuel cs
    | none => c :: scanGo branches rep fuel cs

/-- Global replace: scan left to right; on a match emit the replacement
and continue after the matched span, else copy one character.  (A
zero-width match cannot occur for the modelled patterns, every branch
starting with a non-empty literal; that case copies the character.) -/
def scanRe (branches : List (List Atom)) (rep : List Char) (cs : List Char) : List Char :=
  scanGo branches rep cs.length cs

/-- Shorthand for a plain-word branch. -/
def litB (s : String) : List Atom := [.lit s.toList]

/-- Branch `a.*b`. -/
def starB (a b : String) : List Atom := [.lit a.toList, .star, .lit b.toList]

/-- The three `maliciousPatterns` regexes of `filterAndSpellCheck`. -/
def maliciousPatterns : List (List (List Atom)) :=
  [ [litB "hack", litB "crack", litB "exploit", litB "virus", litB "malware", litB "phishing"],
    [litB "prescription", starB "give" "medicine", starB "recommend" "drug"],
    [litB "diagnose", starB "what" "disease", starB "tell" "treatment"] ]

/-- The `corrections` table, in `Object.entries` (insertion) order. -/
def corrections : List (String × List String) :=
  [ ("chest pain", ["chest pane", "cheast pain", "chest lo pain"]),
    ("headache", ["head ache", "hedache", "head lo pain"]),
    ("shortness of breath", ["short breath", "breathing problem", "cant breathe"]),
    ("palpitations", ["heart beating fast", "heart racing", "gunde baga fast"]),
    ("dizziness", ["dizzy", "light headed", "chakkar"]),
    ("fatigue", ["tired", "weakness", "weak feeling"]),
    ("sweating", ["perspiration", "sweats", "chimmata"]),
    ("nausea", ["feeling sick", "vomiting sensation", "vomit feel"]) ]

/-- The sequence of replacement passes performed by
`filterAndSpellCheck`: the three redaction regexes, then each
correction variant (one literal pass per variant, in table order). -/
def passes : List (List (List Atom) × List Char) :=
  maliciousPatterns.map (fun p => (p, "[FILTERED]".toList)) ++
    (corrections.map (fun e => e.2.map (fun v => ([litB v], e.1.toList)))).flatten

/-- Apply all passes in order. -/
def applyPasses (cs : List Char) : List Char :=
  passes.foldl (fun s p => scanRe p.1 p.2 s) cs

/-- `filterAndSpellCheck` from `backend/llm.js` (the TextNormalizer):
redaction pass followed by colloquial-to-canonical corrections. -/
def filterAndSpellCheck (message : String) : String :=
  String.mk (applyPasses message.toList)

/-! ### SymptomMatcher: `detectMainSymptom` and `getSymptomQuestions` -/

/-- Substring test (case-sensitive), JS `text.includes(s)`. -/
def containsSub (pat cs : List Char) : Bool :=
  (splitBeforeFirst pat cs).isSome

/-- Maximal runs of lowercase letters (JS `split(/[^a-z]+/)` followed by
`filter(Boolean)` on lower-cased text). -/
def alphaRuns (acc : List Char) : List Char → List String
  | [] => if acc.isEmpty then [] else [String.mk acc.reverse]
  | c :: cs =>
    if 'a' ≤ c ∧ c ≤ 'z' then alphaRuns (c :: acc) cs
    else if acc.isEmpty then alphaRuns [] cs
    else String.mk acc.reverse :: alphaRuns [] cs

/-- JS `s.split(/\s+/)`: leading or trailing whitespace contributes
empty fields, interior runs are single separators.  Fuel-bounded
(`cs.length` suffices: every step consumes at least one character). -/
def wsSplitGo (acc : List Char) : Nat → List Char → List String
  | _, [] => [String.mk acc.reverse]
  | 0, cs => [String.mk (acc.reverse ++ cs)]
  | fuel + 1, c :: cs =>
    if isWsChar c then
      String.mk acc.reverse :: wsSplitGo [] fuel (cs.dropWhile (fun d => isWsChar d))
    else wsSplitGo (c :: acc) fuel cs

/-- JS `s.split(/\s+/)`. -/
def wsSplit (cs : List Char) : List String := wsSplitGo [] cs.length cs

/-- `detectMainSymptom` from `backend/llm.js`: containment first (in
catalog order), then token-overlap scoring with strict improvement and
first-wins ties; a best score of zero yields no symptom.  `catalog` is
the `symptom` column of `symptom_rules`. -/
def detectMainSymptom (catalog : List String) (message : String) : Option String :=
  let list := catalog.map (fun r => lowerStr r)
  let text := lowerStr message
  match list.find? (fun s => containsSub s.toList text.toList) with
  | some s => some s
  | none =>
    let tokens := alphaRuns [] text.toList
    let best := list.foldl
      (fun (acc : Nat × Option String) s =>
        let st := (wsSplit s.toList).dedup
        let overlap := (st.filter (fun t => tokens.contains t)).length
        if overlap > acc.1 then (overlap, some s) else acc)
      (0, none)
    best.2

/-- The hard-coded default follow-up questions of `getSymptomQuestions`. -/
def defaultQuestions : List String :=
  ["When did this symptom start?",
   "How severe is it on a scale of 1-10?",
   "Does anything make it better or worse?"]

/-- `getSymptomQuestions`: the `symptom_rules` row for the symptom if
one exists (the `rulesFor` collaborator models the `ILIKE` lookup),
else the default trio. -/
def getSymptomQuestions (rulesFor : String → Option (List String)) (symptom : String) :
    List String :=
  match rulesFor symptom with
  | some qs => qs
  | none => defaultQuestions

/-! ### SlotGenerator: the calendar module

Times are minutes since a local epoch whose day 0 is a Thursday, so
`getDay` agrees with JS weekday numbering (0 = Sunday … 6 = Saturday). -/

/-- JS `Date.getDay` for a minute timestamp. -/
def getDayM (t : Nat) : Nat := (t / 1440 + 4) % 7

/-- JS `Date.getHours` for a minute timestamp. -/
def getHoursM (t : Nat) : Nat := t % 1440 / 60

/-- `setDate(getDate()+1)` followed by `setHours(9,0,0,0)`. -/
def nextDay9 (t : Nat) : Nat := (t / 1440 + 1) * 1440 + 9 * 60

/-- A busy interval from the free/busy collaborator, in minutes. -/
structure Busy where
  start : Nat
  stop : Nat
deriving Repr, DecidableEq

/-- A candidate appointment slot (`stop` models the `end` field, which
is a reserved word in Lean; `display` is the locale label). -/
structure Slot where
  start : Nat
  stop : Nat
  display : String
deriving Repr, DecidableEq

/-- Weekday short names for the display label (en-IN locale order with
Sunday = 0, as in `getDayM`). -/
def dayName (d : Nat) : String :=
  [ "Sun", "Mon", "Tue", "Wed", "Thu", "Fri", "Sat" ].getD d "Sun"

/-- Model of `formatSlotTime`'s locale-formatted label. -/
def formatSlotTime (t : Nat) : String :=
  dayName (getDayM t) ++ " d" ++ natDigits (t / 1440) ++ " " ++
    natDigits (getHoursM t) ++ ":" ++ natDigits (t % 60)

/-- The overlap test of `generateAvailableSlots`. -/
def isConflict (slotStart slotEnd : Nat) (busySlots : List Busy) : Bool :=
  busySlots.any (fun busy => slotStart < busy.stop ∧ slotEnd > busy.start)

/-- The scanning loop of `generateAvailableSlots`.  One fuel unit per
iteration; the wrapper passes fuel that can never be exhausted while
the loop condition still holds (each iteration strictly advances
`current`, and the loop stops at `endT`). -/
def genGo (busySlots : List Busy) : Nat → Nat → Nat → List Slot → List Slot
  | 0, _, _, slots => slots
  | fuel + 1, current, endT, slots =>
    if current < endT ∧ slots.length < 10 then
      if getDayM current = 0 ∨ getDayM current = 6 then
        genGo busySlots fuel (nextDay9 current) endT slots
      else
        let slots' :=
          if 9 ≤ getHoursM current ∧ getHoursM current < 18 ∧
              ¬isConflict current (current + 30) busySlots then
            slots ++ [⟨current, current + 30, formatSlotTime current⟩]
          else slots
        let cur1 := current + 30
        let cur2 := if 18 ≤ getHoursM cur1 then nextDay9 cur1 else cur1
        genGo busySlots fuel cur2 endT slots'
    else slots

/-- `generateAvailableSlots` from the calendar module: walk the range in
30-minute steps over weekday working hours, collect up to 10
conflict-free slots, return the first 3. -/
def generateAvailableSlots (startDate endDate : Nat) (busySlots : List Busy) : List Slot :=
  (genGo busySlots endDate startDate endDate []).take 3

/-- `getDefaultSlots`: three 30-minute slots at 10:00, 12:00 and 14:00
on the calendar day after `now`. -/
def getDefaultSlots (now : Nat) : List Slot :=
  let base := (now / 1440 + 1) * 1440
  (List.range 3).map (fun i =>
    let slotTime := base + (10 + i * 2) * 60
    ⟨slotTime, slotTime + 30, formatSlotTime slotTime⟩)

/-! ### JS numeric coercions used by the per-turn handler -/

/-- `Number(s)` for a string: trimmed decimal literal (the rarely used
hexadecimal form is not modelled; no modelled call site feeds it). -/
def strToNum (s : String) : Option Dec :=
  let cs := (s.toList.dropWhile (fun c => isWsChar c)).reverse
  let cs := (cs.dropWhile (fun c => isWsChar c)).reverse
  if cs.isEmpty then some (Dec.ofInt 0)
  else
    let (neg, cs1) :=
      match cs with
      | '-' :: r => (true, r)
      | '+' :: r => (false, r)
      | _ => (false, cs)
    let (iv, icnt, r1) := takeDigits cs1 0 0
    let (fv, fcnt, r2) :=
      match r1 with
      | '.' :: rf =>
        let (v, n, r') := takeDigits rf 0 0
        (v, n, r')
      | _ => (0, 0, r1)
    if icnt + fcnt = 0 then none
    else
      let (ev, r3) :=
        match r2 with
        | 'e' :: re | 'E' :: re =>
          let (esgn, re1) :=
            match re with
            | '-' :: rr => ((-1 : Int), rr)
            | '+' :: rr => ((1 : Int), rr)
            | _ => ((1 : Int), re)
          match takeDigits re1 0 0 with
          | (_, 0, _) => (none, re1)
          | (v, _ + 1, r') => (some (esgn * (v : Int)), r')
        | _ => (some (0 : Int), r2)
      match ev, r3 with
      | some e, [] =>
        let base := Dec.norm ((iv : Int) * p10 fcnt + (fv : Int)) fcnt
        let mag := base.mulPow10 e
        some (if neg then ⟨-mag.mant, mag.exp⟩ else mag)
      | _, _ => none

/-- JS `Number(v)` coercion (`none` is NaN). -/
def Jv.asNum : Jv → Option Dec
  | .num q => q
  | .null => some (Dec.ofInt 0)
  | .undef => none
  | .bool b => some (Dec.ofInt (if b then 1 else 0))
  | .str s => strToNum s
  | .arr xs => strToNum (Jv.toStr (.arr xs))
  | .obj _ => none

/-- NaN-propagating addition. -/
def addN (a b : Option Dec) : Option Dec :=
  match a, b with
  | some x, some y => some (x.add y)
  | _, _ => none

/-- `Math.min` (NaN-propagating). -/
def minN (a b : Option Dec) : Option Dec :=
  match a, b with
  | some x, some y => some (x.minD y)
  | _, _ => none

/-- JS `>=` on numbers: false when either side is NaN. -/
def geN (a b : Option Dec) : Bool :=
  match a, b with
  | some x, some y => Dec.le y x
  | _, _ => false

/-- JS array indexing `xs[q]` for an array of strings and a numeric
index: an element for an exact in-range integer index, else undefined. -/
def idxList (xs : List String) (q : Option Dec) : Jv :=
  match q with
  | some r =>
    if r.exp = 0 ∧ 0 ≤ r.mant ∧ r.mant < xs.length then .str (xs.getD r.mant.toNat "")
    else .undef
  | none => Jv.undef

/-! ### The per-turn handler `getAIResponse` -/

/-- An `allPatientAnswers` entry.  The source also stamps a
`timestamp: new Date()`; wall-clock time is outside the model. -/
structure Answer where
  question : Jv
  answer : String
  symptom : Jv
deriving Repr

/-- The session-state payload (`session_data`), with the fields the
handler reads and writes.  Fields are dynamic JS values; `Jv.undef`
stands for an absent key. -/
structure Session where
  currentStep : Jv := .undef
  currentSymptom : Jv := .undef
  questionsAskedForCurrentSymptom : Jv := .undef
  allPatientAnswers : List Answer := []
  lastQuestion : Jv := .undef
  sessionSummary : Jv := .undef
  diagnosisSuggestions : Jv := .undef
  isEmergency : Jv := .undef
  allQuestionsCompleted : Jv := .undef
  language : Jv := .undef
deriving Repr

/-- External collaborators and configuration consumed by one turn of
`getAIResponse`.  Database reads/writes are modelled by success flags
(a `false` flag makes the corresponding query throw) and by the data
they would return; the inference collaborator's output is `rawContent`;
each doctor's free/busy lookup result is listed in `doctorSlots`. -/
structure Env where
  preOk : Bool := true
  insertOk : Bool := true
  updateOk : Bool := true
  doctorsOk : Bool := true
  catalog : List String := []
  rulesFor : String → Option (List String) := fun _ => none
  cfgMax : Nat := 0
  rawContent : String := ""
  doctorSlots : List ((String × String) × List Slot) := []
  now : Nat := 0

/-- A slot as attached to the reply object (`start`/`end` are kept as
minute timestamps; the source serializes them as ISO strings). -/
def slotToJv (s : Slot) : Jv :=
  .obj [("start", .num (some (Dec.ofInt s.start))), ("end", .num (some (Dec.ofInt s.stop))),
        ("display", .str s.display)]

/-- `config.ai.maxQuestionsPerSymptom || 3` (the configuration value,
with 0 standing for an unset config entry). -/
def maxPerSymptomOf (env : Env) : Nat := if env.cfgMax = 0 then 3 else env.cfgMax

/-- Line 93: `symptomQuestions.length ? symptomQuestions :
await getSymptomQuestions(currentSymptom)`. -/
def effectiveFollowUps (env : Env) (currentSymptom : Jv) (symptomQuestions : List String) :
    List String :=
  if symptomQuestions.length ≠ 0 then symptomQuestions
  else getSymptomQuestions env.rulesFor currentSymptom.toStr

/-- Line 96: `Math.min(maxPerSymptom, followUps.length || maxPerSymptom)`,
the effective question cap for the current symptom. -/
def effectiveCap (env : Env) (currentSymptom : Jv) (symptomQuestions : List String) : Nat :=
  let fu := effectiveFollowUps env currentSymptom symptomQuestions
  min (maxPerSymptomOf env)
    (if fu.length = 0 then maxPerSymptomOf env else fu.length)

/-- The deterministic-control step (lines 77–116 of `llm.js`): a reply
object from the rule-driven branches, or `null` when the model-assisted
path must be used. -/
def detControl (env : Env) (currentStep currentSymptom questionsAsked : Jv)
    (symptomQuestions : List String) (filteredMessage : String) : Jv :=
  if (currentStep == Jv.str "symptom_identification") || !currentSymptom.truthy then
    match detectMainSymptom env.catalog filteredMessage with
    | some detected =>
      let followUps := getSymptomQuestions env.rulesFor detected
      .obj [("message", jsOr (idxList followUps (some (Dec.ofInt 0)))
               (.str "Can you tell me more about your main symptom?")),
            ("type", .str "symptom_questions"),
            ("nextStep", .str "symptom_questions"),
            ("currentSymptom", .str detected),
            ("questionNumber", .str "1"),
            ("allQuestionsCompleted", .bool false)]
    | none => .null
  else if (currentStep == Jv.str "symptom_questions") && currentSymptom.truthy then
    let followUps := effectiveFollowUps env currentSymptom symptomQuestions
    let maxPerSymptom := maxPerSymptomOf env
    let nextIdxN := questionsAsked.asNum
    let cap : Nat := effectiveCap env currentSymptom symptomQuestions
    if !geN nextIdxN (some (Dec.ofInt (cap : Int))) then
      .obj [("message", jsOr (jsOr (idxList followUps nextIdxN)
                 (idxList followUps (some (Dec.ofInt 0))))
               (.str "Can you tell me more about your main symptom?")),
            ("type", .str "symptom_questions"),
            ("nextStep", .str "symptom_questions"),
            ("currentSymptom", currentSymptom),
            ("questionNumber", .str (numToStr (addN nextIdxN (some (Dec.ofInt 1))))),
            ("allQuestionsCompleted", .bool false)]
    else
      .obj [("message", .str "Thank you. I will summarize your information now and share a few appointment slots."),
            ("type", .str "booking_offer"),
            ("nextStep", .str "booking_offer"),
            ("currentSymptom", currentSymptom),
            ("questionNumber",
              .str ((jsOr questionsAsked (.num (some (Dec.ofInt (maxPerSymptom : Int))))).toStr)),
            ("allQuestionsCompleted", .bool true)]
  else .null

/-- The deterministic fallback reply synthesized when every parse-repair
stage fails (lines 170–183 of `llm.js`). -/
def fallbackReply (env : Env) (currentSymptom questionsAsked nextSymptomQuestion : Jv)
    (symptomQuestions : List String) : Jv :=
  let maxPerSymptom := if env.cfgMax = 0 then 3 else env.cfgMax
  let nextQNum := minN (addN questionsAsked.asNum (some (Dec.ofInt 1)))
    (some (Dec.ofInt (maxPerSymptom : Int)))
  let completed : Jv :=
    if geN nextQNum (some (Dec.ofInt (maxPerSymptom : Int))) then .bool true
    else if symptomQuestions.length = 0 then .num (some (Dec.ofInt 0))
    else .bool (geN nextQNum (some (Dec.ofInt (symptomQuestions.length : Int))))
  .obj [("message", nextSymptomQuestion),
        ("type", .str "symptom_questions"),
        ("nextStep", if completed.truthy then .str "session_summary" else .str "symptom_questions"),
        ("currentSymptom", jsOr currentSymptom .null),
        ("questionNumber", .str (numToStr nextQNum)),
        ("allQuestionsCompleted", completed)]

/-- Line 50 of `llm.js`: `sessionData.currentStep || 'symptom_identification'`. -/
def stepOf (sessionData : Session) : Jv :=
  jsOr sessionData.currentStep (.str "symptom_identification")

/-- Line 51: `sessionData.currentSymptom || null`. -/
def symOf (sessionData : Session) : Jv := jsOr sessionData.currentSymptom .null

/-- Line 52: `sessionData.questionsAskedForCurrentSymptom || 0`. -/
def askedOf (sessionData : Session) : Jv :=
  jsOr sessionData.questionsAskedForCurrentSymptom (.num (some (Dec.ofInt 0)))

/-- Lines 58–66: the follow-up questions fetched for the current
symptom (empty unless the session is in `symptom_questions` with a
symptom set; `rows[0]?.follow_up_questions || []`). -/
def symptomQuestionsOf (env : Env) (sessionData : Session) : List String :=
  if (stepOf sessionData == Jv.str "symptom_questions") && (symOf sessionData).truthy then
    (env.rulesFor (symOf sessionData).toStr).getD []
  else []

/-- Lines 68–75: the next single question to ask (empty string outside
`symptom_questions`). -/
def nextSymptomQuestionOf (env : Env) (sessionData : Session) : Jv :=
  let symptomQuestions := symptomQuestionsOf env sessionData
  if stepOf sessionData == Jv.str "symptom_questions" then
    let maxQ := min (if env.cfgMax = 0 then 3 else env.cfgMax)
      (if symptomQuestions.length = 0 then 3 else symptomQuestions.length)
    let idx := minN (jsOr (askedOf sessionData) (.num (some (Dec.ofInt 0)))).asNum
      (some (Dec.ofInt ((maxQ : Int) - 1)))
    jsOr (jsOr (idxList symptomQuestions idx) (idxList symptomQuestions (some (Dec.ofInt 0))))
      (.str "Can you tell me more about your main symptom?")
  else .str ""

/-- The reply value after the deterministic control and the parse-repair
chain (lines 77–185): the deterministic branches when they produced a
reply, else the direct parse, else the repaired parse, else the
synthesized fallback. -/
def aiResponseOf (env : Env) (message : String) (sessionData : Session) : Jv :=
  if (detControl env (stepOf sessionData) (symOf sessionData) (askedOf sessionData)
      (symptomQuestionsOf env sessionData) (filterAndSpellCheck message)).truthy then
    detControl env (stepOf sessionData) (symOf sessionData) (askedOf sessionData)
      (symptomQuestionsOf env sessionData) (filterAndSpellCheck message)
  else
    match jsonParse env.rawContent with
    | some v => v
    | none =>
      match repairParsed env.rawContent with
      | some v => v
      | none =>
        fallbackReply env (symOf sessionData) (askedOf sessionData)
          (nextSymptomQuestionOf env sessionData) (symptomQuestionsOf env sessionData)

/-- Lines 188–205: the updated session-state object. -/
def sessionUpdate (sessionData : Session) (filteredMessage : String) (aiResponse : Jv) :
    Session :=
  { sessionData with
    currentStep := jsOr (aiResponse.getOpt "nextStep") (stepOf sessionData)
    currentSymptom := jsOr (aiResponse.getOpt "currentSymptom") (symOf sessionData)
    questionsAskedForCurrentSymptom :=
      if (aiResponse.getOpt "questionNumber").truthy then
        parseIntJv (aiResponse.getOpt "questionNumber")
      else askedOf sessionData
    allPatientAnswers := sessionData.allPatientAnswers ++
      [{ question := jsOr sessionData.lastQuestion
           (if aiResponse.getOpt "type" == Jv.str "symptom_questions" then
              .str "Initial symptom question"
            else .str "Initial symptom description")
         answer := filteredMessage
         symptom := jsOr (aiResponse.getOpt "currentSymptom") (symOf sessionData) }]
    lastQuestion := aiResponse.getOpt "message"
    sessionSummary := jsOr (aiResponse.getOpt "sessionSummary") sessionData.sessionSummary
    diagnosisSuggestions := aiResponse.getOpt "diagnosis_suggestions"
    isEmergency := jsOr (aiResponse.getOpt "isEmergency") (.bool false)
    allQuestionsCompleted := jsOr (aiResponse.getOpt "allQuestionsCompleted") (.bool false) }

/-- Lines 240–250: the best-doctor selection loop — keep the first
doctor whose free/busy lookup yielded strictly more slots than the
current best (`(!best.slots?.length && slots?.length) ||
slots?.length > best.slots?.length`). -/
def pickBest (doctorSlots : List ((String × String) × List Slot)) :
    Option (String × String) × List Slot :=
  doctorSlots.foldl
    (fun best ds =>
      if (best.2.length = 0 && ds.2.length ≠ 0) || ds.2.length > best.2.length then
        (some ds.1, ds.2)
      else best)
    (none, [])

/-- Line 252: `(best.slots?.length ? best.slots : getDefaultSlots()).slice(0, 3)`. -/
def finalSlotsOf (env : Env) : List Slot :=
  (if (pickBest env.doctorSlots).2.length ≠ 0 then (pickBest env.doctorSlots).2
   else getDefaultSlots env.now).take 3

/-- Lines 231–262: attach up to 3 appointment slots (and the suggested
doctor) when the reply enters the booking step; on a `doctors`-query
exception the catch attaches an empty `options` list. -/
def attachSlots (env : Env) (aiResponse : Jv) : Jv :=
  if (aiResponse.getOpt "nextStep" == Jv.str "booking_offer") ||
      (aiResponse.getOpt "allQuestionsCompleted").truthy then
    if env.doctorsOk then
      let r1 := aiResponse.setF "options" (.arr ((finalSlotsOf env).map slotToJv))
      match (pickBest env.doctorSlots).1 with
      | some d => (r1.setF "suggestedDoctorId" (.str d.1)).setF "suggestedDoctorName" (.str d.2)
      | none => r1
    else aiResponse.setF "options" (.arr [])
  else aiResponse

/-- One turn of `getAIResponse` up to (and including) the session-data
write; `Except.error` models a thrown JS exception reaching the outer
catch: a failed early read (`preOk`), the TypeError from accessing
`aiResponse.nextStep` when the direct parse yielded `null`, a failed
interaction insert, or a failed session update — all of which occur
before or at the store write.  Returns the final reply (after slot
attachment) and the session state persisted by the
`UPDATE chat_sessions` query. -/
def coreResponse (env : Env) (message : String) (sessionData : Session) :
    Except Unit (Jv × Session) :=
  if !env.preOk then .error () else
  if aiResponseOf env message sessionData == Jv.null ||
      aiResponseOf env message sessionData == Jv.undef then .error () else
  if !env.insertOk then .error () else
  if !env.updateOk then .error () else
  .ok (attachSlots env (aiResponseOf env message sessionData),
       sessionUpdate sessionData (filterAndSpellCheck message)
         (aiResponseOf env message sessionData))

/-- The reply returned by the outer `catch` of `getAIResponse`. -/
def errorReply (sessionData : Session) : Jv :=
  .obj [("message", .str "I'm having trouble processing your request. Please try again."),
        ("type", .str "error"),
        ("nextStep", jsOr sessionData.currentStep (.str "symptom_identification"))]

/-- `getAIResponse` from `backend/llm.js`: the per-turn handler.  The
second component is the session state persisted by this turn (`none`
when the turn threw and nothing was stored). -/
def getAIResponse (env : Env) (message : String) (sessionData : Session) :
    Jv × Option Session :=
  match coreResponse env message sessionData with
  | .ok (r, u) => (r, some u)
  | .error _ => (errorReply sessionData, none)

/-! ### Auxiliary predicates and fixtures used by the verification -/

/-- No pattern of `branches` matches at any position of `cs`. -/
def cleanFor (branches : List (List Atom)) : List Char → Bool
  | [] => true
  | c :: cs => (tryBranches branches (c :: cs)).isNone && cleanFor branches cs

/-- No replacement pass of `filterAndSpellCheck` finds a match in `cs`. -/
def cleanAll (cs : List Char) : Bool := passes.all (fun p => cleanFor p.1 cs)

/-- A small `symptom_rules` catalog lookup used for concrete runs:
"chest pain" has three follow-up questions. -/
def cRules : String → Option (List String) := fun s =>
  if s = "chest pain" then some ["Q1", "Q2", "Q3"] else none

/-- A concrete collaborator environment for concrete runs. -/
def cEnv : Env := { catalog := ["chest pain", "headache"], rulesFor := cRules, cfgMax := 3 }

/-- A session mid-way through the follow-up questions with the
emergency flag already set. -/
def sessMidQuestions : Session :=
  { currentStep := .str "symptom_questions", currentSymptom := .str "chest pain",
    questionsAskedForCurrentSymptom := .num (some (Dec.ofInt 1)), isEmergency := .bool true }

/-- A session that has completed the question phase (in `booking_offer`
for "chest pain"). -/
def cSessBooking : Session :=
  { currentStep := .str "booking_offer", currentSymptom := .str "chest pain",
    questionsAskedForCurrentSymptom := .num (some (Dec.ofInt 3)) }

/-- Raw model output whose direct parse succeeds with JSON `null`. -/
def envNullRaw : Env := { cEnv with rawContent := "null" }

/-- Raw model output with an unparseable fenced block followed by a
parseable brace span. -/
def rawFencedBrace : String := "```json not json``` \x7b\"ok\": true\x7d"

/-- Model output that steers a `booking_offer` session back to
`symptom_questions`. -/
def envReenter : Env :=
  { cEnv with rawContent :=
      "\x7b\"nextStep\": \"symptom_questions\", \"currentSymptom\": \"chest pain\", \"questionNumber\": \"1\", \"message\": \"q\"\x7d" }

/-- An input whose normalization creates the substring "hack"
("cant breathe" → "shortness of breath", then "breath" ++ "ack"). -/
def xBreatheack : String := "cant breatheack"

/-- Raw model output on which every parse-repair stage fails. -/
def envFallback : Env := { cEnv with rawContent := "oops" }

/-- One doctor whose availability lookup yielded no slots. -/
def envOneDoctorNoSlots : Env := { cEnv with doctorSlots := [(("d1", "Dr A"), [])] }

/-- A reply that has completed the question phase. -/
def replyBooking : Jv := .obj [("allQuestionsCompleted", .bool true)]

/-! ## Theorems -/

/-- C7: calling the slot generator with `startDate` a Saturday 10:00
(minute 3480: weekday 6), `endDate` the following Tuesday 20:00 (minute
8400: weekday 2, two days after the following Monday), and no busy
intervals yields a non-empty list whose first candidate starts on the
following Monday (two calendar days later, weekday 1) at 09:00 —
weekend days are skipped by advancing the cursor to 09:00 of the next
day. -/
theorem c7_slots_skip_weekend :
    getDayM 3480 = 6 ∧ getHoursM 3480 = 10 ∧
    getDayM 8400 = 2 ∧ getHoursM 8400 = 20 ∧
    generateAvailableSlots 3480 8400 [] ≠ [] ∧
    (generateAvailableSlots 3480 8400 []).head?.map Slot.start = some 6300 ∧
    6300 / 1440 = 3480 / 1440 + 2 ∧ getDayM 6300 = 1 ∧
    getHoursM 6300 = 9 ∧ 6300 % 60 = 0 := by
  refine ⟨rfl, rfl, rfl, rfl, ?_, rfl, rfl, rfl, rfl, rfl⟩
  decide

/-- C8 counterexample: with the current date a Friday (minute 1440,
weekday 5), every default slot falls on the Saturday immediately after
(weekday 6) — not on the next business day, which would be Monday.  The
claim that the default slot set falls on the next business day is
therefore false. -/
theorem c8_counterexample_friday :
    getDayM 1440 = 5 ∧
    ((getDefaultSlots 1440).map (fun s => getDayM s.start)) = [6, 6, 6] := by
  exact ⟨rfl, rfl⟩

/-- C8 amended: for every current date the deterministic default slot
set consists of exactly three 30-minute slots spaced 2 hours apart
(10:00, 12:00, 14:00) on the next *calendar* day after the current
date, regardless of whether that day is a business day. -/
theorem c8_default_slots_next_day (now : Nat) :
    (getDefaultSlots now).map (fun s => (s.start, s.stop)) =
      [((now / 1440 + 1) * 1440 + 600, (now / 1440 + 1) * 1440 + 630),
       ((now / 1440 + 1) * 1440 + 720, (now / 1440 + 1) * 1440 + 750),
       ((now / 1440 + 1) * 1440 + 840, (now / 1440 + 1) * 1440 + 870)] := by
  rfl

/-- C10: error atomicity of the per-turn handler — every turn either
persists an updated session state, or returns exactly the error reply,
whose `nextStep` is the session's prior `currentStep` (defaulting to
`symptom_identification` when unset), with no session state persisted. -/
theorem c10_error_atomicity (env : Env) (message : String) (sessionData : Session) :
    (∃ u, (getAIResponse env message sessionData).2 = some u) ∨
    getAIResponse env message sessionData =
      (.obj [("message", .str "I'm having trouble processing your request. Please try again."),
             ("type", .str "error"),
             ("nextStep", jsOr sessionData.currentStep (.str "symptom_identification"))],
       none) := by
  unfold getAIResponse
  cases h : coreResponse env message sessionData with
  | ok p => exact Or.inl ⟨p.2, rfl⟩
  | error e => exact Or.inr rfl

/-- C2 counterexample: for the raw output
`"```json not json``` {"ok": true}"` the direct parse fails, a fenced
block is found whose (non-empty) contents also fail to parse, and the
brace span from the first `{` to the last `}` would parse to a truthy
object — yet the repair chain yields nothing (so the synthesized
fallback is used): the brace-span step is *not* attempted after a
failed fence parse, contradicting the claim. -/
theorem c2_counterexample_fence_skips_braces :
    jsonParse rawFencedBrace = none ∧
    fenceExtract rawFencedBrace.toList = some ("not json".toList) ∧
    jsonParse "not json" = none ∧
    (braceSpan rawFencedBrace.toList).map String.mk = some "\x7b\"ok\": true\x7d" ∧
    jsonParse "\x7b\"ok\": true\x7d" = some (.obj [("ok", .bool true)]) ∧
    (Jv.obj [("ok", .bool true)]).truthy = true ∧
    repairParsed rawFencedBrace = none := by
  exact ⟨rfl, rfl, rfl, rfl, rfl, rfl, rfl⟩

/-- C2 amended: in the parse-repair chain the fence step short-circuits
the brace-span step entirely: when a fenced block with a non-empty
capture is found, the candidate handed to the parser is exactly that
capture (the brace span is never consulted, even if the capture fails
to parse); the brace span is used only when no fence matched or the
capture was empty. -/
theorem c2_fence_shortcircuits_braces (raw : String) :
    (∀ cap, fenceExtract raw.toList = some cap → cap ≠ [] →
      repairCandidate raw = some (String.mk cap)) ∧
    (fenceExtract raw.toList = none →
      repairCandidate raw = (braceSpan raw.toList).map String.mk) ∧
    (fenceExtract raw.toList = some [] →
      repairCandidate raw = (braceSpan raw.toList).map String.mk) := by
  refine ⟨?_, ?_, ?_⟩
  · intro cap h hne
    simp only [String.toList] at h
    simp [repairCandidate, h, hne]
  · intro h
    simp only [String.toList] at h
    simp [repairCandidate, h]
  · intro h
    simp only [String.toList] at h
    simp [repairCandidate, h]

/-- Witness for C2 amended, at the concrete fenced input. -/
theorem c2_fence_shortcircuits_braces_witness :
    repairCandidate rawFencedBrace = some "not json" := by
  have h := (c2_fence_shortcircuits_braces rawFencedBrace).1 ("not json".toList) rfl
    (by decide)
  exact h

/-- C9 counterexample: the normalizer is not idempotent.  The input
"cant breatheack" contains no redaction marker; one pass rewrites
"cant breathe" to "shortness of breath", leaving "…breath" + "ack" =
"…breathack", which contains "hack"; the second pass then redacts it,
so `normalize (normalize x) ≠ normalize x`. -/
theorem c9_counterexample_not_idempotent :
    containsSub ("[FILTERED]".toList) xBreatheack.toList = false ∧
    filterAndSpellCheck xBreatheack = "shortness of breathack" ∧
    filterAndSpellCheck (filterAndSpellCheck xBreatheack) = "shortness of breat[FILTERED]" ∧
    filterAndSpellCheck (filterAndSpellCheck xBreatheack) ≠ filterAndSpellCheck xBreatheack := by
  refine ⟨rfl, rfl, rfl, ?_⟩
  decide

/-- Loop invariant of `genGo`: any slot in the result was already in
the accumulator or was pushed under the weekday/working-hour/no-conflict
guards. -/
theorem genGo_mem (busySlots : List Busy) :
    ∀ (fuel current endT : Nat) (acc : List Slot) (s : Slot),
      s ∈ genGo busySlots fuel current endT acc →
      s ∈ acc ∨
      (getDayM s.start ≠ 0 ∧ getDayM s.start ≠ 6 ∧
       9 ≤ getHoursM s.start ∧ getHoursM s.start < 18 ∧
       s.stop = s.start + 30 ∧
       ∀ b ∈ busySlots, ¬(s.start < b.stop ∧ s.stop > b.start)) := by
  intro fuel
  induction fuel with
  | zero =>
    intro current endT acc s h
    rw [genGo] at h
    exact Or.inl h
  | succ fuel ih =>
    intro current endT acc s h
    rw [genGo] at h
    split at h
    case isFalse => exact Or.inl h
    case isTrue hcond =>
      split at h
      case isTrue hwk => exact ih _ _ _ _ h
      case isFalse hwk =>
        rcases ih _ _ _ _ h with h' | hP
        · by_cases hpush : 9 ≤ getHoursM current ∧ getHoursM current < 18 ∧
            ¬isConflict current (current + 30) busySlots
          · rw [if_pos hpush] at h'
            rcases List.mem_append.mp h' with ha | hb
            · exact Or.inl ha
            · right
              have hs : s = ⟨current, current + 30, formatSlotTime current⟩ :=
                List.mem_singleton.mp hb
              subst hs
              refine ⟨fun h0 => hwk (Or.inl h0), fun h6 => hwk (Or.inr h6),
                hpush.1, hpush.2.1, rfl, ?_⟩
              intro b hb hcontra
              apply hpush.2.2
              simp only [isConflict, List.any_eq_true]
              exact ⟨b, hb, by simpa using hcontra⟩
          · rw [if_neg hpush] at h'
            exact Or.inl h'
        · exact Or.inr hP

/-- C5: every slot returned by the slot generator, for every start
date, end date, and set of busy intervals, starts on a weekday (not
Saturday or Sunday), starts within working hours (9 ≤ hour < 18),
lasts exactly 30 minutes, and overlaps no busy interval (half-open
overlap test). -/
theorem c5_slot_validity (startDate endDate : Nat) (busySlots : List Busy) (s : Slot)
    (hs : s ∈ generateAvailableSlots startDate endDate busySlots) :
    getDayM s.start ≠ 0 ∧ getDayM s.start ≠ 6 ∧
    9 ≤ getHoursM s.start ∧ getHoursM s.start < 18 ∧
    s.stop = s.start + 30 ∧
    ∀ b ∈ busySlots, ¬(s.start < b.stop ∧ s.stop > b.start) := by
  unfold generateAvailableSlots at hs
  have hmem : s ∈ genGo busySlots endDate startDate endDate [] :=
    List.mem_of_mem_take hs
  rcases genGo_mem busySlots endDate startDate endDate [] s hmem with h | h
  · simp at h
  · exact h

/-- Witness for C5 at a concrete run (the first Monday-morning slot of
the C7 scenario). -/
theorem c5_slot_validity_witness :
    (⟨6300, 6330, formatSlotTime 6300⟩ : Slot) ∈ generateAvailableSlots 3480 8400 [] ∧
    (getDayM 6300 ≠ 0 ∧ getDayM 6300 ≠ 6 ∧ 9 ≤ getHoursM 6300 ∧ getHoursM 6300 < 18 ∧
     6330 = 6300 + 30 ∧ ∀ b ∈ ([] : List Busy), ¬(6300 < b.stop ∧ 6330 > b.start)) :=
  ⟨by decide, c5_slot_validity 3480 8400 [] ⟨6300, 6330, formatSlotTime 6300⟩ (by decide)⟩

/-- A replacement pass leaves a string unchanged when its pattern
matches at no position. -/
theorem scanGo_id (branches : List (List Atom)) (rep : List Char) :
    ∀ (fuel : Nat) (cs : List Char), cleanFor branches cs = true →
      scanGo branches rep fuel cs = cs := by
  intro fuel
  induction fuel with
  | zero => intro cs _; cases cs <;> rfl
  | succ fuel ih =>
    intro cs hclean
    cases cs with
    | nil => rfl
    | cons c cs =>
      rw [cleanFor, Bool.and_eq_true] at hclean
      obtain ⟨h1, h2⟩ := hclean
      rw [scanGo]
      rw [Option.isNone_iff_eq_none] at h1
      rw [h1]
      rw [ih cs h2]

/-- Folding a list of clean passes over a string is the identity. -/
theorem foldPasses_id :
    ∀ (ps : List (List (List Atom) × List Char)) (cs : List Char),
      (∀ p ∈ ps, cleanFor p.1 cs = true) →
      ps.foldl (fun s p => scanRe p.1 p.2 s) cs = cs := by
  intro ps
  induction ps with
  | nil => intro cs _; rfl
  | cons p ps ih =>
    intro cs h
    have hp := h p (List.mem_cons_self p ps)
    have hstep : scanRe p.1 p.2 cs = cs := scanGo_id p.1 p.2 cs.length cs hp
    rw [List.foldl_cons, hstep]
    exact ih cs (fun q hq => h q (List.mem_cons_of_mem p hq))

/-- Rebuilding a string from its character list is the identity. -/
theorem mk_toList (s : String) : String.mk s.toList = s := rfl

/-- `applyPasses` is the identity on clean strings. -/
theorem applyPasses_id (cs : List Char) (h : ∀ p ∈ passes, cleanFor p.1 cs = true) :
    applyPasses cs = cs :=
  foldPasses_id passes cs h

/-- C9 amended: the normalizer is idempotent on every input whose
once-normalized form is clean — no malicious pattern matches and no
colloquial variant occurs in `normalize x` (equivalently, `normalize x`
is a fixed point).  In general idempotence fails: a replacement can
splice a canonical term against surrounding text so that a later run
finds a new match (see the "cant breatheack" counterexample). -/
theorem c9_normalize_idempotent_on_clean (x : String)
    (h : cleanAll (filterAndSpellCheck x).toList = true) :
    filterAndSpellCheck (filterAndSpellCheck x) = filterAndSpellCheck x := by
  unfold cleanAll at h
  simp only [List.all_eq_true] at h
  conv_lhs => rw [filterAndSpellCheck]
  rw [applyPasses_id (filterAndSpellCheck x).toList h]
  exact mk_toList (filterAndSpellCheck x)

set_option maxHeartbeats 4000000 in
/-- Witness for C9 amended: "z" normalizes to itself and is clean. -/
theorem c9_normalize_idempotent_on_clean_witness :
    cleanAll (filterAndSpellCheck "z").toList = true ∧
    filterAndSpellCheck (filterAndSpellCheck "z") = filterAndSpellCheck "z" :=
  ⟨by decide, c9_normalize_idempotent_on_clean "z" (by decide)⟩

/-- A truthy value is not `null`. -/
theorem Jv.ne_null_of_truthy {v : Jv} (h : v.truthy = true) : v ≠ Jv.null := by
  cases v <;> simp_all [Jv.truthy]

/-- A truthy value is not `undefined`. -/
theorem Jv.ne_undef_of_truthy {v : Jv} (h : v.truthy = true) : v ≠ Jv.undef := by
  cases v <;> simp_all [Jv.truthy]

/-- `===` comparison with `null` is false for non-`null` values. -/
theorem beq_null_false {v : Jv} (h : v ≠ Jv.null) : (v == Jv.null) = false := by
  cases v <;> simp_all [(· == ·), Jv.beq]

/-- `===` comparison with `undefined` is false for non-`undefined` values. -/
theorem beq_undef_false {v : Jv} (h : v ≠ Jv.undef) : (v == Jv.undef) = false := by
  cases v <;> simp_all [(· == ·), Jv.beq]

/-- A successful repaired parse yields a truthy value (a falsy result
leaves `aiResponse` unset). -/
theorem repairParsed_truthy {raw : String} {v : Jv} (h : repairParsed raw = some v) :
    v.truthy = true := by
  unfold repairParsed at h
  split at h
  · split at h
    · split at h
      · obtain rfl := Option.some.inj h
        assumption
      · exact absurd h (by simp)
    · exact absurd h (by simp)
  · exact absurd h (by simp)

/-- `parseNum` never produces `undefined`. -/
theorem parseNum_ne_undef {cs : List Char} {v : Jv} {r : List Char}
    (h : parseNum cs = some (v, r)) : v ≠ Jv.undef := by
  intro hv
  subst hv
  unfold parseNum at h
  repeat' split at h
  all_goals simp_all

/-- `parseVal` never produces `undefined`. -/
theorem parseVal_ne_undef :
    ∀ (fuel : Nat) (cs : List Char) (v : Jv) (r : List Char),
      parseVal fuel cs = some (v, r) → v ≠ Jv.undef := by
  intro fuel cs v r h hv
  subst hv
  cases fuel with
  | zero => rw [parseVal] at h; simp at h
  | succ fuel =>
    rw [parseVal] at h
    repeat' split at h
    all_goals
      first
        | exact parseNum_ne_undef h rfl
        | simp_all

/-- `JSON.parse` never yields `undefined`. -/
theorem jsonParse_ne_undef {s : String} {v : Jv} (h : jsonParse s = some v) :
    v ≠ Jv.undef := by
  unfold jsonParse at h
  split at h
  case h_1 p heq =>
    split at h
    · obtain rfl := Option.some.inj h
      exact parseVal_ne_undef _ _ _ _ heq
    · exact absurd h (by simp)
  case h_2 => exact absurd h (by simp)

/-- The reply value is never nullish when the direct parse does not
yield `null`: the deterministic branches and the fallback build
objects, and repaired parses are truthy. -/
theorem aiResponseOf_not_nullish (env : Env) (msg : String) (sess : Session)
    (hnull : jsonParse env.rawContent ≠ some Jv.null) :
    aiResponseOf env msg sess ≠ Jv.null ∧ aiResponseOf env msg sess ≠ Jv.undef := by
  unfold aiResponseOf
  split
  next hdet =>
    exact ⟨Jv.ne_null_of_truthy hdet, Jv.ne_undef_of_truthy hdet⟩
  next =>
    split
    next v heq =>
      refine ⟨fun hv => hnull ?_, jsonParse_ne_undef heq⟩
      rw [hv] at heq
      exact heq
    next =>
      split
      next v heq =>
        have ht := repairParsed_truthy heq
        exact ⟨Jv.ne_null_of_truthy ht, Jv.ne_undef_of_truthy ht⟩
      next =>
        unfold fallbackReply
        exact ⟨by simp, by simp⟩

/-- On the non-error path the handler returns the slot-attached reply
and persists the session computed by `sessionUpdate`. -/
theorem core_ok_shape (env : Env) (msg : String) (sess : Session) (p : Jv × Session)
    (h : coreResponse env msg sess = .ok p) :
    p = (attachSlots env (aiResponseOf env msg sess),
         sessionUpdate sess (filterAndSpellCheck msg) (aiResponseOf env msg sess)) := by
  unfold coreResponse at h
  split at h
  · exact absurd h (by simp)
  · split at h
    · exact absurd h (by simp)
    · split at h
      · exact absurd h (by simp)
      · split at h
        · exact absurd h (by simp)
        · exact (Except.ok.inj h).symm

/-- When the environment's store operations succeed and the reply value
is not nullish, `coreResponse` succeeds. -/
theorem core_ok_of (env : Env) (msg : String) (sess : Session)
    (hpre : env.preOk = true) (hins : env.insertOk = true) (hupd : env.updateOk = true)
    (hnn : aiResponseOf env msg sess ≠ Jv.null) (hnu : aiResponseOf env msg sess ≠ Jv.undef) :
    coreResponse env msg sess =
      .ok (attachSlots env (aiResponseOf env msg sess),
           sessionUpdate sess (filterAndSpellCheck msg) (aiResponseOf env msg sess)) := by
  unfold coreResponse
  rw [hpre, hins, hupd, beq_null_false hnn, beq_undef_false hnu]
  rfl

/-- C3 amended: `isEmergency` in the updated session is recomputed on
every turn from the current reply alone (`aiResponse.isEmergency ||
false`); whenever the reply carries no `isEmergency` field — as on
every deterministic branch and the synthesized fallback — the stored
flag becomes `false`, regardless of the prior session value.  The flag
is therefore not sticky. -/
theorem c3_emergency_not_sticky (env : Env) (msg : String) (sess : Session)
    (r : Jv) (u : Session) (h : getAIResponse env msg sess = (r, some u)) :
    u.isEmergency = jsOr ((aiResponseOf env msg sess).getOpt "isEmergency") (.bool false) ∧
    ((aiResponseOf env msg sess).getOpt "isEmergency" = .undef →
      u.isEmergency = .bool false) := by
  unfold getAIResponse at h
  cases hcore : coreResponse env msg sess with
  | error e => rw [hcore] at h; exact absurd h (by simp)
  | ok p =>
    rw [hcore] at h
    have hp := core_ok_shape env msg sess p hcore
    simp only [Prod.mk.injEq] at h
    obtain ⟨-, hu⟩ := h
    have hu2 : u = sessionUpdate sess (filterAndSpellCheck msg) (aiResponseOf env msg sess) := by
      rw [hp] at hu
      exact (Option.some.inj hu).symm
    subst hu2
    constructor
    · rfl
    · intro hundef
      show jsOr ((aiResponseOf env msg sess).getOpt "isEmergency") (.bool false) = .bool false
      rw [hundef]
      rfl

/-- Witness for C3 amended: a deterministic mid-questions turn on a
session whose emergency flag is set stores `isEmergency = false`. -/
theorem c3_emergency_not_sticky_witness :
    sessMidQuestions.isEmergency = Jv.bool true ∧
    ∃ r u, getAIResponse cEnv "it hurts" sessMidQuestions = (r, some u) ∧
      u.isEmergency = jsOr ((aiResponseOf cEnv "it hurts" sessMidQuestions).getOpt "isEmergency")
        (.bool false) ∧
      u.isEmergency = .bool false := by
  refine ⟨rfl, _, _, rfl, ?_, ?_⟩
  · exact (c3_emergency_not_sticky cEnv "it hurts" sessMidQuestions _ _ rfl).1
  · exact (c3_emergency_not_sticky cEnv "it hurts" sessMidQuestions _ _ rfl).2 rfl

/-- C3 counterexample: with `isEmergency = true` in the session, a
deterministic follow-up-question turn persists `isEmergency = false` —
the flag is reset within the session, refuting stickiness. -/
theorem c3_counterexample_reset :
    sessMidQuestions.isEmergency = Jv.bool true ∧
    ((getAIResponse cEnv "it hurts" sessMidQuestions).2.map Session.isEmergency) =
      some (.bool false) := ⟨rfl, rfl⟩

/-- C1 counterexample: a raw model output of `"null"` parses directly
(so the repair chain inside the catch never runs), the resulting `null`
then throws on the first property access, and the handler returns its
error reply with *no* updated session state — the parse-repair chain
does not resolve every raw output into a reply plus updated state. -/
theorem c1_counterexample_null_raw :
    jsonParse envNullRaw.rawContent = some Jv.null ∧
    getAIResponse envNullRaw "ok" cSessBooking =
      (.obj [("message", .str "I'm having trouble processing your request. Please try again."),
             ("type", .str "error"), ("nextStep", .str "booking_offer")], none) :=
  ⟨rfl, rfl⟩

/-- C1 amended: for every raw model output whose direct parse does not
yield JSON `null` (and with the store collaborators available), the
per-turn handler returns a defined reply and a persisted updated
session state without throwing; moreover when the deterministic control
produced nothing and both the direct parse and the repair steps fail,
the reply is exactly the synthesized deterministic fallback (built from
the next follow-up question, with `allQuestionsCompleted` computed from
the cursor against the caps — see `fallbackReply`), after slot
attachment. -/
theorem c1_parse_repair_resolves (env : Env) (msg : String) (sess : Session)
    (hpre : env.preOk = true) (hins : env.insertOk = true) (hupd : env.updateOk = true)
    (hnull : jsonParse env.rawContent ≠ some Jv.null) :
    (∃ r u, getAIResponse env msg sess = (r, some u)) ∧
    ((detControl env (stepOf sess) (symOf sess) (askedOf sess)
        (symptomQuestionsOf env sess) (filterAndSpellCheck msg)).truthy = false →
      jsonParse env.rawContent = none → repairParsed env.rawContent = none →
      (getAIResponse env msg sess).1 =
        attachSlots env (fallbackReply env (symOf sess) (askedOf sess)
          (nextSymptomQuestionOf env sess) (symptomQuestionsOf env sess))) := by
  obtain ⟨hnn, hnu⟩ := aiResponseOf_not_nullish env msg sess hnull
  have hcore := core_ok_of env msg sess hpre hins hupd hnn hnu
  constructor
  · exact ⟨_, _, by unfold getAIResponse; rw [hcore]⟩
  · intro hdet hjp hrp
    unfold getAIResponse
    rw [hcore]
    have hfb : aiResponseOf env msg sess =
        fallbackReply env (symOf sess) (askedOf sess) (nextSymptomQuestionOf env sess)
          (symptomQuestionsOf env sess) := by
      unfold aiResponseOf
      rw [hdet, hjp, hrp]
      rfl
    rw [hfb]

/-- Witness for C1 amended: a model-assisted turn whose raw output is
unparseable resolves to the slot-attached synthesized fallback with a
persisted session. -/
theorem c1_parse_repair_resolves_witness :
    (∃ r u, getAIResponse envFallback "ok" cSessBooking = (r, some u)) ∧
    (getAIResponse envFallback "ok" cSessBooking).1 =
      attachSlots envFallback (fallbackReply envFallback (symOf cSessBooking)
        (askedOf cSessBooking) (nextSymptomQuestionOf envFallback cSessBooking)
        (symptomQuestionsOf envFallback cSessBooking)) := by
  have h := c1_parse_repair_resolves envFallback "ok" cSessBooking rfl rfl rfl
    (by rw [show jsonParse envFallback.rawContent = none from rfl]; simp)
  exact ⟨h.1, h.2 rfl rfl rfl⟩

/-- `any` is invariant under reversal. -/
theorem any_reverse (l : List (String × Jv)) (p : String × Jv → Bool) :
    l.reverse.any p = l.any p := by
  cases h1 : l.reverse.any p <;> cases h2 : l.any p <;>
    simp_all [List.any_eq_true, List.mem_reverse]

/-- `find?` on a cons whose head satisfies the predicate. -/
theorem find_cons_pos {α : Type} (f : α → Bool) (a : α) (l : List α) (h : f a = true) :
    (a :: l).find? f = some a :=
  List.find?_cons_of_pos l h

/-- `find?` on a cons whose head fails the predicate. -/
theorem find_cons_neg {α : Type} (f : α → Bool) (a : α) (l : List α) (h : ¬f a = true) :
    (a :: l).find? f = l.find? f :=
  List.find?_cons_of_neg l h

/-- After overwriting every binding of key `k` with `(k, x)`, lookup of
`k` finds `(k, x)`. -/
theorem find_map_set (k : String) (x : Jv) :
    ∀ (m : List (String × Jv)), m.any (fun p => p.1 == k) = true →
      (m.map (fun p => if p.1 == k then (k, x) else p)).find? (fun p => p.1 == k) =
        some (k, x) := by
  intro m
  induction m with
  | nil => intro h; simp at h
  | cons p m ih =>
    intro h
    simp only [List.map_cons]
    by_cases hp : (p.1 == k) = true
    · rw [if_pos hp]
      rw [List.find?_cons_of_pos _ (by simp)]
    · rw [if_neg hp]
      rw [List.find?_cons_of_neg _ (by simpa using hp)]
      apply ih
      simpa [List.any_cons, hp] using h

/-- Overwriting bindings of key `k` does not affect lookup of `k' ≠ k`. -/
theorem find_map_ne (k k' : String) (x : Jv) (hkk : (k == k') = false) :
    ∀ (m : List (String × Jv)),
      (m.map (fun p => if p.1 == k then (k, x) else p)).find? (fun p => p.1 == k') =
        m.find? (fun p => p.1 == k') := by
  intro m
  induction m with
  | nil => rfl
  | cons p m ih =>
    simp only [List.map_cons]
    by_cases hp : (p.1 == k) = true
    · have hp' : (p.1 == k') = false := by
        have hk : p.1 = k := eq_of_beq hp
        subst hk
        exact hkk
      rw [if_pos hp]
      rw [List.find?_cons_of_neg _ (by simpa using hkk)]
      rw [List.find?_cons_of_neg _ (by simpa using hp')]
      exact ih
    · rw [if_neg hp]
      by_cases hq : (p.1 == k') = true
      · rw [find_cons_pos (fun q => q.1 == k') p _ hq,
          find_cons_pos (fun q => q.1 == k') p _ hq]
      · rw [find_cons_neg (fun q => q.1 == k') p _ hq,
          find_cons_neg (fun q => q.1 == k') p _ hq]
        exact ih

/-- Reading back the field just written. -/
theorem getOpt_setF_self (fields : List (String × Jv)) (k : String) (x : Jv) :
    (Jv.setF (.obj fields) k x).getOpt k = x := by
  simp only [Jv.setF]
  by_cases h : fields.any (fun p => p.1 == k) = true
  · rw [if_pos h]
    simp only [Jv.getOpt]
    rw [← List.map_reverse]
    rw [find_map_set k x fields.reverse (by rw [any_reverse]; exact h)]
  · rw [if_neg h]
    simp only [Jv.getOpt]
    rw [List.reverse_append]
    simp only [List.reverse_cons, List.reverse_nil, List.nil_append, List.singleton_append]
    rw [List.find?_cons_of_pos _ (by simp)]

/-- Writing one field does not affect reading another. -/
theorem getOpt_setF_ne (v : Jv) (k k' : String) (x : Jv) (hkk : (k == k') = false) :
    (Jv.setF v k x).getOpt k' = v.getOpt k' := by
  cases v with
  | obj fields =>
    simp only [Jv.setF]
    by_cases h : fields.any (fun p => p.1 == k) = true
    · rw [if_pos h]
      simp only [Jv.getOpt]
      rw [← List.map_reverse]
      rw [find_map_ne k k' x hkk fields.reverse]
    · rw [if_neg h]
      simp only [Jv.getOpt]
      rw [List.reverse_append]
      simp only [List.reverse_cons, List.reverse_nil, List.nil_append, List.singleton_append]
      rw [List.find?_cons_of_neg _ (by simpa using hkk)]
  | undef => rfl
  | null => rfl
  | bool b => rfl
  | num q => rfl
  | str s => rfl
  | arr xs => rfl

/-- One step of the best-pick loop keeps the accumulator when the
doctor has no slots. -/
theorem pickStep_empty (acc : Option (String × String) × List Slot)
    (ds : (String × String) × List Slot) (hd : ds.2 = []) :
    (if (acc.2.length = 0 && ds.2.length ≠ 0) || ds.2.length > acc.2.length then
      (some ds.1, ds.2) else acc) = acc := by
  rw [hd]
  simp

/-- The best-pick fold keeps its accumulator over a run of empty
doctor slot lists. -/
theorem pickFold_keep :
    ∀ (l : List ((String × String) × List Slot))
      (acc : Option (String × String) × List Slot),
      (∀ ds ∈ l, ds.2 = ([] : List Slot)) →
      l.foldl (fun best ds =>
        if (best.2.length = 0 && ds.2.length ≠ 0) || ds.2.length > best.2.length then
          (some ds.1, ds.2) else best) acc = acc := by
  intro l
  induction l with
  | nil => intro acc _; rfl
  | cons ds l ih =>
    intro acc hall
    rw [List.foldl_cons]
    rw [pickStep_empty acc ds (hall ds (List.mem_cons_self ds l))]
    exact ih acc (fun e he => hall e (List.mem_cons_of_mem ds he))

/-- When every doctor's lookup yielded no slots, the best-pick loop
keeps its initial state. -/
theorem pickBest_allEmpty (l : List ((String × String) × List Slot))
    (h : ∀ ds ∈ l, ds.2 = []) : pickBest l = (none, []) := by
  unfold pickBest
  exact pickFold_keep l (none, []) h

/-- The default slot set has exactly three slots, so `slice(0, 3)` is
the identity on it. -/
theorem getDefaultSlots_take3 (now : Nat) :
    (getDefaultSlots now).take 3 = getDefaultSlots now := rfl

/-- A reply passing the booking-attachment condition is an object
(primitives and nullish values have only undefined fields). -/
theorem booking_cond_obj {r : Jv}
    (h : ((r.getOpt "nextStep" == Jv.str "booking_offer") ||
      (r.getOpt "allQuestionsCompleted").truthy) = true) :
    ∃ fields, r = .obj fields := by
  cases r with
  | obj fields => exact ⟨fields, rfl⟩
  | undef => exact absurd h (by simp [Jv.getOpt, Jv.truthy, (· == ·), Jv.beq])
  | null => exact absurd h (by simp [Jv.getOpt, Jv.truthy, (· == ·), Jv.beq])
  | bool b => exact absurd h (by simp [Jv.getOpt, Jv.truthy, (· == ·), Jv.beq])
  | num q => exact absurd h (by simp [Jv.getOpt, Jv.truthy, (· == ·), Jv.beq])
  | str s => exact absurd h (by simp [Jv.getOpt, Jv.truthy, (· == ·), Jv.beq])
  | arr xs => exact absurd h (by simp [Jv.getOpt, Jv.truthy, (· == ·), Jv.beq])

/-- C6: whenever the reply enters `booking_offer` (equivalently carries
a truthy `allQuestionsCompleted`) and the doctors lookup succeeds, the
attached `options` list is exactly `finalSlotsOf env`, which always has
between 1 and 3 slots; and when the availability collaborator yielded
no slots for any doctor, it is exactly the deterministic default slot
set. -/
theorem c6_booking_slots (env : Env) (r : Jv)
    (hdoc : env.doctorsOk = true)
    (hcond : ((r.getOpt "nextStep" == Jv.str "booking_offer") ||
      (r.getOpt "allQuestionsCompleted").truthy) = true) :
    (attachSlots env r).getOpt "options" = .arr ((finalSlotsOf env).map slotToJv) ∧
    1 ≤ (finalSlotsOf env).length ∧ (finalSlotsOf env).length ≤ 3 ∧
    ((∀ ds ∈ env.doctorSlots, ds.2 = []) → finalSlotsOf env = getDefaultSlots env.now) := by
  obtain ⟨fields, rfl⟩ := booking_cond_obj hcond
  refine ⟨?_, ?_, ?_, ?_⟩
  · unfold attachSlots
    rw [if_pos hcond, if_pos hdoc]
    cases hbest : (pickBest env.doctorSlots).1 with
    | none => exact getOpt_setF_self fields "options" _
    | some d =>
      rw [getOpt_setF_ne _ "suggestedDoctorName" "options" _ (by decide)]
      rw [getOpt_setF_ne _ "suggestedDoctorId" "options" _ (by decide)]
      exact getOpt_setF_self fields "options" _
  · unfold finalSlotsOf
    split
    next hne =>
      rw [List.length_take]
      have : (pickBest env.doctorSlots).2.length ≠ 0 := hne
      omega
    next =>
      rw [List.length_take]
      have : (getDefaultSlots env.now).length = 3 := rfl
      omega
  · unfold finalSlotsOf
    split <;> (rw [List.length_take]; omega)
  · intro hall
    unfold finalSlotsOf
    rw [pickBest_allEmpty _ hall]
    rw [if_neg (by simp)]
    exact getDefaultSlots_take3 env.now

/-- Witness for C6: one doctor with no slots — the default set (three
slots) is attached. -/
theorem c6_booking_slots_witness :
    (attachSlots envOneDoctorNoSlots replyBooking).getOpt "options" =
      .arr ((finalSlotsOf envOneDoctorNoSlots).map slotToJv) ∧
    1 ≤ (finalSlotsOf envOneDoctorNoSlots).length ∧
    (finalSlotsOf envOneDoctorNoSlots).length ≤ 3 ∧
    finalSlotsOf envOneDoctorNoSlots = getDefaultSlots envOneDoctorNoSlots.now := by
  have h := c6_booking_slots envOneDoctorNoSlots replyBooking rfl rfl
  refine ⟨h.1, h.2.1, h.2.2.1, h.2.2.2 ?_⟩
  intro ds hds
  simp only [envOneDoctorNoSlots] at hds
  simp at hds
  rw [hds]

/-- Every entry of the little-endian digit list is a decimal digit. -/
theorem natDigitsAux_lt (fuel : Nat) : ∀ n, ∀ d ∈ natDigitsAux fuel n, d < 10 := by
  induction fuel with
  | zero => intro n d hd; simp [natDigitsAux] at hd
  | succ fuel ih =>
    intro n d hd
    cases n with
    | zero => simp [natDigitsAux] at hd
    | succ m =>
      simp only [natDigitsAux] at hd
      rcases List.mem_cons.mp hd with h | h
      · subst h; exact Nat.mod_lt _ (by omega)
      · exact ih _ d h

/-- Folding the little-endian digits back with `a * 10 + d` recovers the
number (with enough fuel). -/
theorem natDigitsAux_foldr (fuel : Nat) :
    ∀ n, n ≤ fuel → (natDigitsAux fuel n).foldr (fun d a => a * 10 + d) 0 = n := by
  induction fuel with
  | zero =>
    intro n hn
    have h0 : n = 0 := by omega
    subst h0
    rfl
  | succ fuel ih =>
    intro n hn
    cases n with
    | zero => rfl
    | succ m =>
      simp only [natDigitsAux, List.foldr_cons]
      have hdiv : (m + 1) / 10 ≤ fuel := by
        have := Nat.div_lt_self (Nat.succ_pos m) (by omega : 1 < 10)
        omega
      rw [ih _ hdiv]
      omega

/-- For a decimal digit `d`, `digitChar d` is a digit character: it
parses back to `d`, is not whitespace and is not a sign. -/
theorem digitChar_facts (d : Nat) (hd : d < 10) :
    digitVal (digitChar d) = some d ∧ isWsChar (digitChar d) = false ∧
    digitChar d ≠ '-' ∧ digitChar d ≠ '+' := by
  interval_cases d <;> exact ⟨by decide, by decide, by decide, by decide⟩

/-- `takeDigits` consumes a rendered digit list entirely, accumulating
its base-10 value. -/
theorem takeDigits_map (ds : List Nat) (h : ∀ x ∈ ds, x < 10) :
    ∀ acc cnt, takeDigits (ds.map digitChar) acc cnt =
      (ds.foldl (fun a x => a * 10 + x) acc, cnt + ds.length, []) := by
  induction ds with
  | nil => intro acc cnt; simp [takeDigits]
  | cons d tl ih =>
    intro acc cnt
    have hdv := (digitChar_facts d (h d (List.mem_cons_self d tl))).1
    simp only [List.map_cons, takeDigits, hdv, List.foldl_cons, List.length_cons]
    rw [ih (fun x hx => h x (List.mem_cons_of_mem d hx)) (acc * 10 + d) (cnt + 1)]
    have hc : cnt + 1 + tl.length = cnt + (tl.length + 1) := by omega
    rw [hc]

/-- `parseIntStr` on a nonempty rendered digit list returns its base-10
value. -/
theorem parseIntStr_digits (d : Nat) (tl : List Nat) (hd : d < 10)
    (htl : ∀ x ∈ tl, x < 10) :
    parseIntStr (String.mk ((d :: tl).map digitChar)) =
      some (((d :: tl).foldl (fun a x => a * 10 + x) 0 : Nat) : Int) := by
  obtain ⟨hdv, hws, hdash, hplus⟩ := digitChar_facts d hd
  have hmem : ∀ x ∈ d :: tl, x < 10 := by
    intro x hx
    rcases List.mem_cons.mp hx with h | h
    · subst h; exact hd
    · exact htl x h
  have hTD : takeDigits (digitChar d :: tl.map digitChar) 0 0 =
      ((d :: tl).foldl (fun a x => a * 10 + x) 0, tl.length + 1, []) := by
    have h := takeDigits_map (d :: tl) hmem 0 0
    simp only [List.map_cons, List.length_cons, Nat.zero_add] at h
    exact h
  have hTL : (String.mk ((d :: tl).map digitChar)).toList =
      digitChar d :: tl.map digitChar := rfl
  have hDW : List.dropWhile (fun c => isWsChar c) (digitChar d :: tl.map digitChar) =
      digitChar d :: tl.map digitChar := by
    rw [List.dropWhile_cons, if_neg (by simp [hws])]
  simp only [parseIntStr, hTL, hDW]
  split
  · exfalso
    rename_i heq
    split at heq
    · rename_i heq2
      simp only [List.cons.injEq] at heq2
      exact hdash heq2.1
    · rename_i heq2
      simp only [List.cons.injEq] at heq2
      exact hplus heq2.1
    · simp only [hTD] at heq
      simp only [Prod.mk.injEq] at heq
      omega
  · rename_i v k snd heq
    split at heq
    · rename_i heq2
      exfalso
      simp only [List.cons.injEq] at heq2
      exact hdash heq2.1
    · rename_i heq2
      exfalso
      simp only [List.cons.injEq] at heq2
      exact hplus heq2.1
    · simp only [hTD] at heq
      simp only [Prod.mk.injEq] at heq
      split
      · rename_i heq3
        exact absurd heq3 (by simp)
      · rw [heq.1]

/-- The reversed digit list of a positive number is nonempty. -/
theorem natDigitsList_ne_nil (m : Nat) : natDigitsList (m + 1) ≠ [] := by
  simp only [natDigitsList, natDigitsAux]
  simp

/-- `natDigits` never renders the empty string. -/
theorem natDigits_ne_empty (k : Nat) : natDigits k ≠ "" := by
  cases k with
  | zero => decide
  | succ m =>
    rw [natDigits, if_neg (Nat.succ_ne_zero m)]
    have hne : (natDigitsList (m + 1)).reverse ≠ [] := by
      simp only [ne_eq, List.reverse_eq_nil_iff]
      exact natDigitsList_ne_nil m
    obtain ⟨d, tl, hcons⟩ := List.exists_cons_of_ne_nil hne
    rw [hcons, List.map_cons]
    intro h
    exact List.noConfusion (congrArg String.data h)

/-- Round trip: `parseInt(String(n))` recovers `n` for a natural
number. -/
theorem parseIntStr_natDigits (k : Nat) : parseIntStr (natDigits k) = some (k : Int) := by
  cases k with
  | zero => rfl
  | succ m =>
    have hne : (natDigitsList (m + 1)).reverse ≠ [] := by
      simp only [ne_eq, List.reverse_eq_nil_iff]
      exact natDigitsList_ne_nil m
    obtain ⟨d, tl, hcons⟩ := List.exists_cons_of_ne_nil hne
    have hmem : ∀ x ∈ d :: tl, x < 10 := by
      intro x hx
      have hx2 : x ∈ natDigitsList (m + 1) := by
        rw [← List.mem_reverse, hcons]
        exact hx
      exact natDigitsAux_lt _ _ x hx2
    have hfold : (d :: tl).foldl (fun a x => a * 10 + x) 0 = m + 1 := by
      rw [← hcons, List.foldl_reverse]
      exact natDigitsAux_foldr (m + 1) (m + 1) (Nat.le_refl _)
    rw [natDigits, if_neg (Nat.succ_ne_zero m), hcons,
      parseIntStr_digits d tl (hmem d (List.mem_cons_self d tl))
        (fun x hx => hmem x (List.mem_cons_of_mem d hx)),
      hfold]

/-- `parseIntJv` on the decimal rendering of a natural number yields
that number. -/
theorem parseIntJv_natDigits (k : Nat) :
    parseIntJv (Jv.str (natDigits k)) = Jv.num (some (Dec.ofInt (k : Int))) := by
  have ht : (Jv.str (natDigits k)).toStr = natDigits k := rfl
  rw [parseIntJv, ht, parseIntStr_natDigits]

/-- `Dec.add` on integer embeddings is integer addition. -/
theorem Dec.add_ofInt (a b : Int) :
    Dec.add (Dec.ofInt a) (Dec.ofInt b) = Dec.ofInt (a + b) := by
  simp [Dec.add, Dec.ofInt, Dec.norm, Dec.normAux, p10]

/-- `addN` on integer embeddings is integer addition. -/
theorem addN_ofInt (a b : Int) :
    addN (some (Dec.ofInt a)) (some (Dec.ofInt b)) = some (Dec.ofInt (a + b)) := by
  simp only [addN, Dec.add_ofInt]

/-- `geN` on integer embeddings is the integer comparison. -/
theorem geN_ofInt (a b : Int) :
    geN (some (Dec.ofInt a)) (some (Dec.ofInt b)) = decide (b ≤ a) := by
  simp [geN, Dec.le, Dec.ofInt, p10]

/-- `String(x)` of an integer-valued number is `intToStr`. -/
theorem numToStr_ofInt (m : Int) : numToStr (some (Dec.ofInt m)) = intToStr m := by
  simp [numToStr, Dec.ofInt]

/-- `intToStr` of a natural number is its digit rendering. -/
theorem intToStr_ofNat (k : Nat) : intToStr (k : Int) = natDigits k := by
  rw [intToStr, if_neg (by omega), Int.natAbs_ofNat]

/-- Reading `questionsAskedForCurrentSymptom || 0` from a session whose
cursor is the integer `n` yields `n` (for `n = 0` the `|| 0` default
applies and coincides). -/
theorem askedOf_num (sess : Session) (n : Nat)
    (hn : sess.questionsAskedForCurrentSymptom = Jv.num (some (Dec.ofInt (n : Int)))) :
    askedOf sess = Jv.num (some (Dec.ofInt (n : Int))) := by
  rw [askedOf, hn, jsOr]
  split
  next => rfl
  next h =>
    have h0 : (n : Int) = 0 := by
      by_contra hne
      exact h (by simp [Jv.truthy, Dec.ofInt, hne])
    rw [h0]

/-- `currentStep || 'symptom_identification'` on a session in
`symptom_questions`. -/
theorem stepOf_questions (sess : Session)
    (h : sess.currentStep = Jv.str "symptom_questions") :
    stepOf sess = Jv.str "symptom_questions" := by
  rw [stepOf, h]
  rfl

/-- `currentSymptom || null` on a session with a nonempty symptom
string. -/
theorem symOf_str (sess : Session) (y : String) (hy : y ≠ "")
    (h : sess.currentSymptom = Jv.str y) : symOf sess = Jv.str y := by
  rw [symOf, h, jsOr, if_pos (by simp [Jv.truthy, hy])]

/-- The effective question cap is always at least 1. -/
theorem effectiveCap_pos (env : Env) (v : Jv) (sq : List String) :
    1 ≤ effectiveCap env v sq := by
  have hmx : 1 ≤ maxPerSymptomOf env := by
    rw [maxPerSymptomOf]; split <;> omega
  simp only [effectiveCap]
  refine le_min hmx ?_
  split
  next => exact hmx
  next h => omega

/-- The four session fields the cursor claim inspects, as written by
`sessionUpdate`. -/
theorem sessionUpdate_fields (sess : Session) (fm : String) (r : Jv) :
    (sessionUpdate sess fm r).currentStep = jsOr (r.getOpt "nextStep") (stepOf sess) ∧
    (sessionUpdate sess fm r).currentSymptom = jsOr (r.getOpt "currentSymptom") (symOf sess) ∧
    (sessionUpdate sess fm r).questionsAskedForCurrentSymptom =
      (if (r.getOpt "questionNumber").truthy then parseIntJv (r.getOpt "questionNumber")
       else askedOf sess) ∧
    (sessionUpdate sess fm r).allQuestionsCompleted =
      jsOr (r.getOpt "allQuestionsCompleted") (Jv.bool false) :=
  ⟨rfl, rfl, rfl, rfl⟩

/-- Deterministic branch 2, cursor below the cap: the reply advances
the question number to `n + 1` and stays in `symptom_questions`. -/
theorem detControl_questions_step (env : Env) (sq : List String) (fm : String)
    (y : String) (hy : y ≠ "") (n : Nat)
    (hlt : n < effectiveCap env (Jv.str y) sq) :
    ∃ M, detControl env (Jv.str "symptom_questions") (Jv.str y)
        (Jv.num (some (Dec.ofInt (n : Int)))) sq fm =
      Jv.obj [("message", M),
              ("type", Jv.str "symptom_questions"),
              ("nextStep", Jv.str "symptom_questions"),
              ("currentSymptom", Jv.str y),
              ("questionNumber", Jv.str (natDigits (n + 1))),
              ("allQuestionsCompleted", Jv.bool false)] := by
  refine ⟨jsOr (jsOr (idxList (effectiveFollowUps env (Jv.str y) sq)
      (some (Dec.ofInt (n : Int))))
      (idxList (effectiveFollowUps env (Jv.str y) sq) (some (Dec.ofInt 0))))
      (Jv.str "Can you tell me more about your main symptom?"), ?_⟩
  simp only [detControl]
  split
  next h => exact absurd h (by simp [(· == ·), Jv.beq, Jv.truthy, hy])
  next h1 =>
    split
    next h2 =>
      split
      next h3 =>
        simp only [Jv.asNum, addN_ofInt, numToStr_ofInt]
        rw [(by omega : ((n : Int) + 1) = ((n + 1 : Nat) : Int)), intToStr_ofNat]
      next h3 =>
        exfalso
        simp only [Jv.asNum, geN_ofInt] at h3
        simp at h3
        omega
    next h2 =>
      exact absurd (by simp [(· == ·), Jv.beq, Jv.truthy, hy]) h2

/-- Deterministic branch 2, cursor at or past the cap: the reply moves
to `booking_offer` with the cursor's own value as question number and
`allQuestionsCompleted = true`. -/
theorem detControl_questions_done (env : Env) (sq : List String) (fm : String)
    (y : String) (hy : y ≠ "") (n : Nat)
    (hge : effectiveCap env (Jv.str y) sq ≤ n) (hn0 : n ≠ 0) :
    detControl env (Jv.str "symptom_questions") (Jv.str y)
        (Jv.num (some (Dec.ofInt (n : Int)))) sq fm =
      Jv.obj [("message", Jv.str "Thank you. I will summarize your information now and share a few appointment slots."),
              ("type", Jv.str "booking_offer"),
              ("nextStep", Jv.str "booking_offer"),
              ("currentSymptom", Jv.str y),
              ("questionNumber", Jv.str (natDigits n)),
              ("allQuestionsCompleted", Jv.bool true)] := by
  simp only [detControl]
  split
  next h => exact absurd h (by simp [(· == ·), Jv.beq, Jv.truthy, hy])
  next h1 =>
    split
    next h2 =>
      split
      next h3 =>
        exfalso
        simp only [Jv.asNum, geN_ofInt] at h3
        simp at h3
        omega
      next h3 =>
        have hjs : jsOr (Jv.num (some (Dec.ofInt (n : Int))))
            (Jv.num (some (Dec.ofInt (maxPerSymptomOf env : Int)))) =
            Jv.num (some (Dec.ofInt (n : Int))) := by
          rw [jsOr, if_pos (by simp [Jv.truthy, Dec.ofInt]; omega)]
        rw [hjs]
        have ht : (Jv.num (some (Dec.ofInt (n : Int)))).toStr = natDigits n := by
          show numToStr (some (Dec.ofInt (n : Int))) = natDigits n
          rw [numToStr_ofInt, intToStr_ofNat]
        rw [ht]
    next h2 =>
      exact absurd (by simp [(· == ·), Jv.beq, Jv.truthy, hy]) h2

/-- C4: while the session is in `symptom_questions` with a symptom set
and an integer cursor `n`, a committed turn behaves deterministically:
below the effective cap `min(configuredMax, followUps.length ||
configuredMax)` the persisted cursor becomes exactly `n + 1` (still
bounded by the cap) and the step stays `symptom_questions`; at or past
the cap the persisted step becomes `booking_offer` with the cursor
unchanged and `allQuestionsCompleted = true`.  (The further claim that
the session never re-enters `symptom_questions` for the same symptom is
refuted separately: from `booking_offer` a model-supplied `nextStep`
re-enters it.) -/
theorem c4_cursor_monotonic (env : Env) (msg : String) (sess : Session) (y : String) (n : Nat)
    (r : Jv) (u : Session) (h : getAIResponse env msg sess = (r, some u))
    (hstep : sess.currentStep = Jv.str "symptom_questions")
    (hsym : sess.currentSymptom = Jv.str y) (hy : y ≠ "")
    (hn : sess.questionsAskedForCurrentSymptom = Jv.num (some (Dec.ofInt (n : Int)))) :
    (n < effectiveCap env (Jv.str y) (symptomQuestionsOf env sess) →
      u.currentStep = Jv.str "symptom_questions" ∧ u.currentSymptom = Jv.str y ∧
      u.questionsAskedForCurrentSymptom = Jv.num (some (Dec.ofInt ((n + 1 : Nat) : Int))) ∧
      n + 1 ≤ effectiveCap env (Jv.str y) (symptomQuestionsOf env sess)) ∧
    (effectiveCap env (Jv.str y) (symptomQuestionsOf env sess) ≤ n →
      u.currentStep = Jv.str "booking_offer" ∧ u.currentSymptom = Jv.str y ∧
      u.questionsAskedForCurrentSymptom = Jv.num (some (Dec.ofInt (n : Int))) ∧
      u.allQuestionsCompleted = Jv.bool true) := by
  have hu : u = sessionUpdate sess (filterAndSpellCheck msg) (aiResponseOf env msg sess) := by
    unfold getAIResponse at h
    cases hcore : coreResponse env msg sess with
    | error e => rw [hcore] at h; exact absurd h (by simp)
    | ok p =>
      rw [hcore] at h
      have hp := core_ok_shape env msg sess p hcore
      simp only [Prod.mk.injEq] at h
      obtain ⟨-, hu'⟩ := h
      rw [hp] at hu'
      exact (Option.some.inj hu').symm
  subst hu
  have hstep' := stepOf_questions sess hstep
  have hsym' := symOf_str sess y hy hsym
  have hasked' := askedOf_num sess n hn
  have hdc : detControl env (stepOf sess) (symOf sess) (askedOf sess)
      (symptomQuestionsOf env sess) (filterAndSpellCheck msg) =
    detControl env (Jv.str "symptom_questions") (Jv.str y)
      (Jv.num (some (Dec.ofInt (n : Int)))) (symptomQuestionsOf env sess)
      (filterAndSpellCheck msg) := by
    rw [hstep', hsym', hasked']
  obtain ⟨hf1, hf2, hf3, hf4⟩ :=
    sessionUpdate_fields sess (filterAndSpellCheck msg) (aiResponseOf env msg sess)
  constructor
  · intro hlt
    obtain ⟨M, hobj⟩ := detControl_questions_step env (symptomQuestionsOf env sess)
      (filterAndSpellCheck msg) y hy n hlt
    have hai : aiResponseOf env msg sess =
        Jv.obj [("message", M),
                ("type", Jv.str "symptom_questions"),
                ("nextStep", Jv.str "symptom_questions"),
                ("currentSymptom", Jv.str y),
                ("questionNumber", Jv.str (natDigits (n + 1))),
                ("allQuestionsCompleted", Jv.bool false)] := by
      unfold aiResponseOf
      rw [hdc, hobj]
      rfl
    have hns : (aiResponseOf env msg sess).getOpt "nextStep" =
        Jv.str "symptom_questions" := by rw [hai]; rfl
    have hcs : (aiResponseOf env msg sess).getOpt "currentSymptom" = Jv.str y := by
      rw [hai]; rfl
    have hqn : (aiResponseOf env msg sess).getOpt "questionNumber" =
        Jv.str (natDigits (n + 1)) := by rw [hai]; rfl
    refine ⟨?_, ?_, ?_, by omega⟩
    · rw [hf1, hns]; rfl
    · rw [hf2, hcs, jsOr, if_pos (by simp [Jv.truthy, hy])]
    · rw [hf3, hqn, if_pos (by simp [Jv.truthy, natDigits_ne_empty]),
        parseIntJv_natDigits]
  · intro hge
    have hn0 : n ≠ 0 := by
      have := effectiveCap_pos env (Jv.str y) (symptomQuestionsOf env sess)
      omega
    have hobj := detControl_questions_done env (symptomQuestionsOf env sess)
      (filterAndSpellCheck msg) y hy n hge hn0
    have hai : aiResponseOf env msg sess =
        Jv.obj [("message", Jv.str "Thank you. I will summarize your information now and share a few appointment slots."),
                ("type", Jv.str "booking_offer"),
                ("nextStep", Jv.str "booking_offer"),
                ("currentSymptom", Jv.str y),
                ("questionNumber", Jv.str (natDigits n)),
                ("allQuestionsCompleted", Jv.bool true)] := by
      unfold aiResponseOf
      rw [hdc, hobj]
      rfl
    have hns : (aiResponseOf env msg sess).getOpt "nextStep" =
        Jv.str "booking_offer" := by rw [hai]; rfl
    have hcs : (aiResponseOf env msg sess).getOpt "currentSymptom" = Jv.str y := by
      rw [hai]; rfl
    have hqn : (aiResponseOf env msg sess).getOpt "questionNumber" =
        Jv.str (natDigits n) := by rw [hai]; rfl
    have hac : (aiResponseOf env msg sess).getOpt "allQuestionsCompleted" =
        Jv.bool true := by rw [hai]; rfl
    refine ⟨?_, ?_, ?_, ?_⟩
    · rw [hf1, hns]; rfl
    · rw [hf2, hcs, jsOr, if_pos (by simp [Jv.truthy, hy])]
    · rw [hf3, hqn, if_pos (by simp [Jv.truthy, natDigits_ne_empty]),
        parseIntJv_natDigits]
    · rw [hf4, hac]; rfl

/-- Witness for C4: a session two turns into the "chest pain" questions
(cursor 1, cap 3) advances its cursor to exactly 2 and stays in
`symptom_questions`. -/
theorem c4_cursor_monotonic_witness :
    (1 : Nat) < effectiveCap cEnv (Jv.str "chest pain") (symptomQuestionsOf cEnv sessMidQuestions) ∧
    ∃ r u, getAIResponse cEnv "yes" sessMidQuestions = (r, some u) ∧
      u.currentStep = Jv.str "symptom_questions" ∧
      u.currentSymptom = Jv.str "chest pain" ∧
      u.questionsAskedForCurrentSymptom = Jv.num (some (Dec.ofInt ((2 : Nat) : Int))) := by
  refine ⟨by decide, _, _, rfl, ?_⟩
  have h := (c4_cursor_monotonic cEnv "yes" sessMidQuestions "chest pain" 1 _ _ rfl rfl rfl
    (by decide) rfl).1 (by decide)
  exact ⟨h.1, h.2.1, h.2.2.1⟩

/-- C4 counterexample: a session that has completed the question phase
(`booking_offer`, symptom "chest pain") is steered back by a
model-supplied reply with `nextStep = "symptom_questions"` and the same
symptom — the committed turn re-enters `symptom_questions` for the same
symptom, refuting the never-re-enters part of the claim. -/
theorem c4_counterexample_reenter :
    cSessBooking.currentStep = Jv.str "booking_offer" ∧
    cSessBooking.currentSymptom = Jv.str "chest pain" ∧
    ((getAIResponse envReenter "ok" cSessBooking).2.map Session.currentStep) =
      some (Jv.str "symptom_questions") ∧
    ((getAIResponse envReenter "ok" cSessBooking).2.map Session.currentSymptom) =
      some (Jv.str "chest pain") :=
  ⟨rfl, rfl, rfl, rfl⟩

end Tricog
